import Mathlib

/-!
Verification of the agent-orchestration core of the DTU rural-education
assistant backend (src/backend/agents/base_agent.py,
src/backend/agents/orchestrator.py and the concrete agents registered by
AgentOrchestrator._initialize_agents).

The embedding is shallow: Python dictionaries become association lists over
an inductive value type, agent subclasses become records whose dynamic parts
(mode, stats, the process_offline / process_online implementations that call
external collaborators) are parameters, and wall-clock readings (timestamps,
elapsed milliseconds) are passed in as explicit arguments.  A Python method
that can raise is modelled as returning Except String; the catch-all blocks
of the source become match branches on that result.
-/

namespace DTU

/-- Python values as they appear in response envelopes and context bags. -/
inductive Val where
  | vNone : Val
  | vBool : Bool → Val
  | vStr : String → Val
  | vNum : ℚ → Val
  | vList : List Val → Val
  | vDict : List (String × Val) → Val

/-- a Python dict with string keys, as an insertion-ordered association list. -/
abbrev PyDict := List (String × Val)

/-- dictionary read, d.get(k): the value at the first matching key, if any. -/
def dget (d : PyDict) (k : String) : Option Val :=
  (d.find? (fun p => p.1 == k)).map (fun p => p.2)

/-- dictionary write, d[k] = v: replace the value at an existing key in place,
otherwise append the new pair at the end (Python dicts keep insertion order). -/
def dset (d : PyDict) (k : String) (v : Val) : PyDict :=
  if d.any (fun p => p.1 == k) then
    d.map (fun p => if p.1 == k then (k, v) else p)
  else d ++ [(k, v)]

/-- Python truthiness of an optional value; none stands for a missing key
(dict.get returning None). -/
def truthy : Option Val → Bool
  | none => false
  | some .vNone => false
  | some (.vBool b) => b
  | some (.vStr s) => !(s == "")
  | some (.vNum q) => !(q == 0)
  | some (.vList l) => !l.isEmpty
  | some (.vDict d) => !d.isEmpty

/-- does the character list n occur contiguously inside h (helper for the
Python substring test "n in h"); the empty needle occurs everywhere. -/
def subChars (n : List Char) : List Char → Bool
  | [] => n.isEmpty
  | c :: rest => n.isPrefixOf (c :: rest) || subChars n rest

/-- the Python membership test "needle in hay" on strings. -/
def pyIn (needle hay : String) : Bool := subChars needle.data hay.data

/-- any(kw in s for kw in kws), the keyword test used by every can_handle. -/
def anyKw (kws : List String) (s : String) : Bool := kws.any (fun kw => pyIn kw s)

/-- the AgentMode enum of base_agent.py. -/
inductive AgentMode where
  | offline
  | online
  | auto
deriving DecidableEq

/-- the .value string of an AgentMode member. -/
def AgentMode.value : AgentMode → String
  | .offline => "offline"
  | .online => "online"
  | .auto => "auto"

/-- the per-agent stats dictionary initialised in BaseAgent.__init__ and
mutated by BaseAgent.process.  The average is kept as a rational. -/
structure AgentStats where
  total_requests : ℕ
  offline_requests : ℕ
  online_requests : ℕ
  successful_responses : ℕ
  failed_responses : ℕ
  avg_response_time_ms : ℚ
  last_used : Option String

/-- the stats dictionary of a freshly constructed agent (BaseAgent.__init__). -/
def initStats : AgentStats :=
  { total_requests := 0, offline_requests := 0, online_requests := 0,
    successful_responses := 0, failed_responses := 0,
    avg_response_time_ms := 0, last_used := none }

/-- a BaseAgent instance.  The subclass process_offline / process_online
methods are function fields returning Except String PyDict: an error value
stands for a raised Python exception carrying its message. -/
structure Agent where
  agent_id : String
  name : String
  priority : ℕ
  current_mode : AgentMode
  can_handle : String → PyDict → ℚ
  process_offline : String → Option PyDict → Except String PyDict
  process_online : String → Option PyDict → Except String PyDict
  stats : AgentStats

/-- BaseAgent._check_connectivity: trust an explicit has_internet entry of a
truthy, non-empty context (the source guard is "context and 'has_internet' in
context"), else report offline.  The source returns the raw dict value whose
only use is the boolean position in process; we return its truthiness. -/
def checkConnectivity : Option PyDict → Bool
  | none => false
  | some c =>
      if c.isEmpty then false
      else match dget c "has_internet" with
        | some v => truthy (some v)
        | none => false

/-- the effective mode computed at the top of BaseAgent.process: an explicit
override wins, else the current mode, and AUTO resolves through
_check_connectivity (online exactly when connectivity is reported). -/
def resolveMode (a : Agent) (ctx : Option PyDict) (mode : Option AgentMode) : AgentMode :=
  let m := mode.getD a.current_mode
  if m = .auto then (if checkConnectivity ctx then .online else .offline) else m

/-- the offline or online call made inside the try of BaseAgent.process,
chosen by the resolved mode exactly as the source if/else does. -/
def runPath (a : Agent) (q : String) (ctx : Option PyDict) (mode : Option AgentMode) :
    Except String PyDict :=
  if resolveMode a ctx mode = .offline then a.process_offline q ctx
  else a.process_online q ctx

/-- BaseAgent._update_avg_response_time: incremental mean over the current
successful_responses count (the source divides only when that count is not 1). -/
def updateAvg (stats : AgentStats) (new_time_ms : ℚ) : AgentStats :=
  let total := stats.successful_responses
  if total = 1 then { stats with avg_response_time_ms := new_time_ms }
  else
    { stats with avg_response_time_ms :=
        (stats.avg_response_time_ms * ((total : ℚ) - 1) + new_time_ms) / (total : ℚ) }

/-- BaseAgent.process.  ts abstracts the timestamp taken at entry and elapsed
the measured duration in milliseconds (the source rounds the stamped
response_time_ms to two decimals for display; the rounding is dropped here,
and the running average is fed the unrounded value exactly as in the source).
Returns the response envelope together with the updated agent. -/
def Agent.process (a : Agent) (q : String) (ctx : Option PyDict)
    (mode : Option AgentMode) (ts : String) (elapsed : ℚ) : PyDict × Agent :=
  let s1 := { a.stats with
    total_requests := a.stats.total_requests + 1, last_used := some ts }
  let am := resolveMode a ctx mode
  let s2 :=
    if am = .offline then { s1 with offline_requests := s1.offline_requests + 1 }
    else { s1 with online_requests := s1.online_requests + 1 }
  match runPath a q ctx mode with
  | .ok r =>
      let r1 := dset (dset (dset (dset r "agent_id" (.vStr a.agent_id))
        "agent_name" (.vStr a.name)) "mode" (.vStr am.value)) "timestamp" (.vStr ts)
      let s3 := { s2 with successful_responses := s2.successful_responses + 1 }
      let s4 := updateAvg s3 elapsed
      (dset r1 "response_time_ms" (.vNum elapsed), { a with stats := s4 })
  | .error e =>
      let s3 := { s2 with failed_responses := s2.failed_responses + 1 }
      ([("success", .vBool false), ("error", .vStr e),
        ("agent_id", .vStr a.agent_id), ("agent_name", .vStr a.name),
        ("mode", .vStr am.value), ("timestamp", .vStr ts)],
       { a with stats := s3 })

/-- the orchestrator stats dictionary set up in AgentOrchestrator.__init__
(the avg_response_time_ms entry there is never written by process_query and
is omitted). -/
structure OrchStats where
  total_queries : ℕ
  successful_responses : ℕ
  failed_responses : ℕ
  agent_usage : List (String × ℕ)

/-- the orchestrator stats dictionary of a freshly constructed orchestrator. -/
def initOrchStats : OrchStats :=
  { total_queries := 0, successful_responses := 0, failed_responses := 0,
    agent_usage := [] }

/-- an AgentOrchestrator: the self.agents dict (insertion-ordered) and stats. -/
structure Orchestrator where
  agents : List (String × Agent)
  stats : OrchStats

/-- registry read, self.agents[agent_id] (first matching entry, if any). -/
def findAgent (ags : List (String × Agent)) (id : String) : Option (String × Agent) :=
  ags.find? (fun p => p.1 == id)

/-- replace the value stored under an existing registry key (the in-place
mutation of an agent entry after its process call). -/
def setAgent (ags : List (String × Agent)) (id : String) (a : Agent) :
    List (String × Agent) :=
  ags.map (fun p => if p.1 == id then (p.1, a) else p)

/-- the sort-key comparison of _select_agents: x may come no later than y
exactly when the Python key tuple (-score, priority) of x is at most that of
y lexicographically, i.e. strictly larger score first and, on equal scores,
smaller priority ordinal first. -/
def selRel (x y : String × ℚ × ℕ) : Prop :=
  y.2.1 < x.2.1 ∨ (x.2.1 = y.2.1 ∧ x.2.2 ≤ y.2.2)

instance : DecidableRel selRel := fun x y =>
  inferInstanceAs (Decidable (y.2.1 < x.2.1 ∨ (x.2.1 = y.2.1 ∧ x.2.2 ≤ y.2.2)))

instance : IsTotal (String × ℚ × ℕ) selRel where
  total x y := by
    unfold selRel
    rcases lt_trichotomy x.2.1 y.2.1 with h | h | h
    · exact Or.inr (Or.inl h)
    · rcases le_total x.2.2 y.2.2 with h2 | h2
      · exact Or.inl (Or.inr ⟨h, h2⟩)
      · exact Or.inr (Or.inr ⟨h.symm, h2⟩)
    · exact Or.inl (Or.inl h)

instance : IsTrans (String × ℚ × ℕ) selRel where
  trans x y z hxy hyz := by
    unfold selRel at *
    rcases hxy with h1 | ⟨h1, h1p⟩
    · rcases hyz with h2 | ⟨h2, _⟩
      · exact Or.inl (h2.trans h1)
      · exact Or.inl (h2 ▸ h1)
    · rcases hyz with h2 | ⟨h2, h2p⟩
      · exact Or.inl (h1 ▸ h2)
      · exact Or.inr ⟨h1.trans h2, h1p.trans h2p⟩

/-- the agent_scores list built by the loop of _select_agents: one
(agent_id, confidence, priority ordinal) triple, in registry order, for every
agent whose can_handle score is strictly positive. -/
def scoredAgents (ags : List (String × Agent)) (q : String) (c : PyDict) :
    List (String × ℚ × ℕ) :=
  ags.filterMap (fun p =>
    let conf := p.2.can_handle q c
    if 0 < conf then some (p.1, conf, p.2.priority) else none)

/-- the agent_scores list after agent_scores.sort(key=lambda x: (-x[1], x[2])).
Python list.sort is stable; a stable sort with respect to a total preorder is
unique, and insertionSort over the non-strict preorder selRel is stable, so it
produces exactly the list the source sort produces. -/
def sortedScored (ags : List (String × Agent)) (q : String) (c : PyDict) :
    List (String × ℚ × ℕ) :=
  List.insertionSort selRel (scoredAgents ags q c)

/-- the first three sorted triples (agent_scores[:3]). -/
def sel3 (ags : List (String × Agent)) (q : String) (c : PyDict) :
    List (String × ℚ × ℕ) :=
  (sortedScored ags q c).take 3

/-- AgentOrchestrator._select_agents. -/
def selectAgents (ags : List (String × Agent)) (q : String) (c : PyDict) :
    List (String × ℚ) :=
  (sel3 ags q c).map (fun t => (t.1, t.2.1))

/-- AgentOrchestrator._update_agent_usage: create the counter at 0 when
missing, then add one. -/
def bumpUsage (u : List (String × ℕ)) (id : String) : List (String × ℕ) :=
  if u.any (fun p => p.1 == id) then
    u.map (fun p => if p.1 == id then (p.1, p.2 + 1) else p)
  else u ++ [(id, 1)]

/-- the usage count recorded for an agent id (0 when absent). -/
def usageOf (u : List (String × ℕ)) (id : String) : ℕ :=
  ((u.find? (fun p => p.1 == id)).map (fun p => p.2)).getD 0

/-- the state threaded through the loop of _enhance_response: the
enhancements dict built so far, the registry (whose agent stats mutate in
place) and the instrumentation trace of agent ids whose process was
invoked. -/
abbrev EnhState := PyDict × List (String × Agent) × List String

/-- a KeyError escaping _enhance_response at the registry lookup
self.agents[agent_id]: it carries the missing id (Python would quote it in
str(e); the quotes are dropped here) together with the registry and the
trace as already mutated by the earlier iterations, since those in-place
mutations survive the exception in the source. -/
abbrev EnhErr := String × List (String × Agent) × List String

/-- one iteration of the loop in AgentOrchestrator._enhance_response.  The
registry lookup agent = self.agents[agent_id] runs for every secondary and
sits before (outside) the per-iteration try, so a missing id raises KeyError
out of _enhance_response.  Inside the try nothing can raise in this model,
because Agent.process catches internally, so the except branch of the
per-iteration try is unreachable here. -/
def enhanceStep (q : String) (c : PyDict) (ts : String) (elapsed : ℚ)
    (primary : PyDict) (acc : EnhState) (entry : String × ℚ) :
    Except EnhErr EnhState :=
  let enh := acc.1
  let ags := acc.2.1
  let tr := acc.2.2
  match findAgent ags entry.1 with
  | none => .error (entry.1, ags, tr)
  | some p =>
      .ok
        (if entry.1 = "content_discovery" ∧ (0.5 : ℚ) < entry.2 then
          let video_context := dset c "subject" ((dget primary "subject").getD .vNone)
          let res := p.2.process q (some video_context) none ts elapsed
          let ags' := setAgent ags entry.1 res.2
          let tr' := tr ++ [entry.1]
          if truthy (dget res.1 "success") then
            (dset enh "recommended_videos" (.vDict res.1), ags', tr')
          else (enh, ags', tr')
        else if entry.1 = "study_path_planner" ∧ (0.5 : ℚ) < entry.2 then
          (dset enh "study_path_available" (.vBool true), ags, tr)
        else if entry.1 = "assessment" ∧ (0.5 : ℚ) < entry.2 then
          (dset enh "practice_available" (.vBool true), ags, tr)
        else acc)

/-- the for-loop of _enhance_response: run the iterations in order, stopping
with the exception as soon as one raises. -/
def enhLoopGo (q : String) (c : PyDict) (ts : String) (elapsed : ℚ)
    (primary : PyDict) : List (String × ℚ) → EnhState → Except EnhErr EnhState
  | [], acc => .ok acc
  | x :: xs, acc =>
      match enhanceStep q c ts elapsed primary acc x with
      | .error er => .error er
      | .ok acc' => enhLoopGo q c ts elapsed primary xs acc'

/-- the full loop of _enhance_response over secondary_agents[:2]. -/
def enhLoop (ags : List (String × Agent)) (primary : PyDict)
    (secs : List (String × ℚ)) (q : String) (c : PyDict) (ts : String)
    (elapsed : ℚ) : Except EnhErr EnhState :=
  enhLoopGo q c ts elapsed primary (secs.take 2) ([], ags, [])

/-- AgentOrchestrator._enhance_response: run the loop, then attach the
enhancements dict under the single key enhancements when it is non-empty; a
KeyError raised by the loop propagates to the caller. -/
def enhanceResponse (ags : List (String × Agent)) (primary : PyDict)
    (secs : List (String × ℚ)) (q : String) (c : PyDict) (ts : String)
    (elapsed : ℚ) : Except EnhErr EnhState :=
  match enhLoop ags primary secs q c ts elapsed with
  | .error er => .error er
  | .ok l =>
      .ok (if l.1.isEmpty then primary
           else dset primary "enhancements" (.vDict l.1), l.2.1, l.2.2)

/-- the envelope built by the outermost except-branch of process_query
(success flag, raw error text, generic message, timestamp only). -/
def pipelineErrorEnvelope (e ts : String) : PyDict :=
  [("success", .vBool false), ("error", .vStr e),
   ("message", .vStr "An error occurred while processing your request"),
   ("timestamp", .vStr ts)]

/-- AgentOrchestrator.process_query.  ts abstracts the timestamps taken
during the call, elapsed the per-agent measured duration and elapsedTotal the
whole-call duration.  Returns the envelope, the updated orchestrator and the
trace of agent ids whose process was invoked.  The statements inside the
outer try that can raise in this model are the registry lookups
self.agents[...] (a KeyError when the id is absent), both the direct ones
here and the one inside _enhance_response; each lands in the except-branch
(failure counter, generic envelope, no usage update) exactly as in the
source; the fallback branch returns before the success/failure counters and
the usage update, again as in the source. -/
def processQuery (o : Orchestrator) (q : String) (ctx : Option PyDict)
    (ts : String) (elapsed elapsedTotal : ℚ) :
    PyDict × Orchestrator × List String :=
  let st := { o.stats with total_queries := o.stats.total_queries + 1 }
  let c := ctx.getD []
  match selectAgents o.agents q c with
  | [] =>
      match findAgent o.agents "offline_knowledge" with
      | none =>
          (pipelineErrorEnvelope "offline_knowledge" ts,
           { o with stats := { st with failed_responses := st.failed_responses + 1 } },
           [])
      | some p =>
          let res := p.2.process q (some c) none ts elapsed
          (dset res.1 "is_fallback" (.vBool true),
           { agents := setAgent o.agents p.1 res.2, stats := st }, [p.1])
  | (pid, _) :: rest =>
      match findAgent o.agents pid with
      | none =>
          (pipelineErrorEnvelope pid ts,
           { o with stats := { st with failed_responses := st.failed_responses + 1 } },
           [])
      | some p =>
          let res := p.2.process q (some c) none ts elapsed
          let ags1 := setAgent o.agents pid res.2
          let er :=
            if rest ≠ [] ∧ truthy (dget res.1 "success") then
              enhanceResponse ags1 res.1 rest q c ts elapsed
            else .ok (res.1, ags1, [])
          match er with
          | .error ex =>
              (pipelineErrorEnvelope ex.1 ts,
               { agents := ex.2.1,
                 stats := { st with failed_responses := st.failed_responses + 1 } },
               [pid] ++ ex.2.2)
          | .ok e2 =>
              let st2 :=
                if truthy (dget e2.1 "success") then
                  { st with successful_responses := st.successful_responses + 1 }
                else { st with failed_responses := st.failed_responses + 1 }
              let st3 := { st2 with agent_usage := bumpUsage st2.agent_usage pid }
              (dset e2.1 "total_response_time_ms" (.vNum elapsedTotal),
               { agents := e2.2.1, stats := st3 }, [pid] ++ e2.2.2)

/-- app_keywords of OfflineKnowledgeAgent.__init__. -/
def appKeywords : List String :=
  ["how to use", "help", "guide", "app", "feature",
   "navigation", "settings", "scan", "share", "qr",
   "timetable", "notes", "offline"]

/-- education_keywords of OfflineKnowledgeAgent.__init__. -/
def educationKeywords : List String :=
  ["what is", "explain", "definition", "formula",
   "theorem", "law", "principle", "concept"]

/-- OfflineKnowledgeAgent.can_handle. -/
def offlineKnowledgeCanHandle (q : String) (_c : PyDict) : ℚ :=
  let ql := q.toLower
  if anyKw appKeywords ql then 0.9
  else if anyKw educationKeywords ql then 0.7
  else 0.3

/-- study_keywords of StudyAssistantAgent.__init__. -/
def studyKeywords : List String :=
  ["explain", "solve", "how to", "what is", "why",
   "homework", "problem", "question", "understand",
   "learn", "teach", "example", "steps", "solution"]

/-- the subject keyword lists of StudyAssistantAgent.__init__, flattened: the
source loops over self.subjects.values() and returns 0.8 on the first list
with a hit, which is the same test as a hit anywhere in the union. -/
def subjectKeywords : List String :=
  ["math", "algebra", "geometry", "calculus", "equation", "solve", "calculate",
   "science", "physics", "chemistry", "biology", "experiment", "theory",
   "history", "geography", "civics", "politics", "democracy",
   "english", "grammar", "essay", "literature", "poem"]

/-- StudyAssistantAgent.can_handle. -/
def studyAssistantCanHandle (q : String) (_c : PyDict) : ℚ :=
  let ql := q.toLower
  if anyKw studyKeywords ql then 0.95
  else if anyKw subjectKeywords ql then 0.8
  else if q.trim.endsWith "?" then 0.6
  else 0.4

/-- voice_keywords of VoiceInterfaceAgent.can_handle. -/
def voiceKeywords : List String :=
  ["speak", "listen", "voice", "audio", "say", "hear", "read aloud"]

/-- VoiceInterfaceAgent.can_handle. -/
def voiceInterfaceCanHandle (q : String) (c : PyDict) : ℚ :=
  if truthy (dget c "voice_input") || truthy (dget c "requires_voice_output") then 1
  else if anyKw voiceKeywords q.toLower then 0.9
  else 0

/-- translation_keywords of LanguageSupportAgent.can_handle. -/
def translationKeywords : List String :=
  ["translate", "meaning in", "hindi me", "punjabi me",
   "क्या मतलब", "किसे कहते हैं", "ਕੀ ਹੈ"]

/-- LanguageSupportAgent.can_handle. -/
def languageSupportCanHandle (q : String) (c : PyDict) : ℚ :=
  if truthy (dget c "requires_translation") then 1
  else if anyKw translationKeywords q.toLower then 0.95
  else 0

/-- assessment_keywords of AssessmentAgent.can_handle. -/
def assessmentKeywords : List String :=
  ["quiz", "test", "question", "practice", "mcq",
   "exam", "assessment", "evaluate", "check answer"]

/-- AssessmentAgent.can_handle. -/
def assessmentCanHandle (q : String) (_c : PyDict) : ℚ :=
  if anyKw assessmentKeywords q.toLower then 0.9 else 0.2

/-- content_keywords of ContentDiscoveryAgent.can_handle. -/
def contentKeywords : List String :=
  ["video", "youtube", "watch", "learn from",
   "recommend", "tutorial", "lecture", "explanation"]

/-- ContentDiscoveryAgent.can_handle. -/
def contentDiscoveryCanHandle (q : String) (_c : PyDict) : ℚ :=
  if anyKw contentKeywords q.toLower then 0.85 else 0.3

/-- planning_keywords of StudyPathPlannerAgent.can_handle. -/
def planningKeywords : List String :=
  ["study plan", "learning path", "syllabus", "schedule",
   "prepare for", "roadmap", "study schedule", "planning",
   "what to study", "study order", "curriculum"]

/-- StudyPathPlannerAgent.can_handle. -/
def studyPathPlannerCanHandle (q : String) (_c : PyDict) : ℚ :=
  if anyKw planningKeywords q.toLower then 0.95 else 0.2

/-- accessibility_keywords of AccessibilityAgent.can_handle. -/
def accessibilityKeywords : List String :=
  ["accessibility", "screen reader", "high contrast",
   "large text", "voice navigation", "captions",
   "color blind", "disability", "visual aid"]

/-- AccessibilityAgent.can_handle. -/
def accessibilityCanHandle (q : String) (c : PyDict) : ℚ :=
  if truthy (dget c "accessibility_mode") then 1
  else if anyKw accessibilityKeywords q.toLower then 0.95
  else 0

/-- the runtime-dependent parts of an agent: its current mode, stats, and the
process_offline / process_online implementations (which call external
collaborators such as the knowledge base and remote services and are
therefore parameters of the embedding). -/
structure AgentDyn where
  current_mode : AgentMode
  stats : AgentStats
  process_offline : String → Option PyDict → Except String PyDict
  process_online : String → Option PyDict → Except String PyDict

/-- assemble an agent from its static identity and its dynamic parts. -/
def mkAgent (id nm : String) (prio : ℕ) (ch : String → PyDict → ℚ)
    (d : AgentDyn) : Agent :=
  { agent_id := id, name := nm, priority := prio,
    current_mode := d.current_mode, can_handle := ch,
    process_offline := d.process_offline, process_online := d.process_online,
    stats := d.stats }

/-- the registry built by AgentOrchestrator._initialize_agents, in insertion
order, with the priority ordinals declared in each __init__
(CRITICAL = 1, HIGH = 2, MEDIUM = 3). -/
def realAgents (d : String → AgentDyn) : List (String × Agent) :=
  [("offline_knowledge",
    mkAgent "offline_knowledge" "Offline Knowledge Agent" 1
      offlineKnowledgeCanHandle (d "offline_knowledge")),
   ("study_assistant",
    mkAgent "study_assistant" "Study Assistant Agent" 2
      studyAssistantCanHandle (d "study_assistant")),
   ("voice_interface",
    mkAgent "voice_interface" "Voice Interface Agent" 2
      voiceInterfaceCanHandle (d "voice_interface")),
   ("language_support",
    mkAgent "language_support" "Language Support Agent" 2
      languageSupportCanHandle (d "language_support")),
   ("assessment",
    mkAgent "assessment" "Assessment Agent" 3
      assessmentCanHandle (d "assessment")),
   ("content_discovery",
    mkAgent "content_discovery" "Content Discovery Agent" 3
      contentDiscoveryCanHandle (d "content_discovery")),
   ("study_path_planner",
    mkAgent "study_path_planner" "Study Path Planner Agent" 3
      studyPathPlannerCanHandle (d "study_path_planner")),
   ("accessibility",
    mkAgent "accessibility" "Accessibility Agent" 1
      accessibilityCanHandle (d "accessibility"))]

/-- one call to BaseAgent.process: query, context, mode override, timestamp,
elapsed milliseconds. -/
abbrev CallIn : Type := String × Option PyDict × Option AgentMode × String × ℚ

/-- run a sequence of calls to BaseAgent.process against one agent,
accumulating its stats. -/
def applyCalls (a : Agent) : List CallIn → Agent
  | [] => a
  | i :: rest => applyCalls ((a.process i.1 i.2.1 i.2.2.1 i.2.2.2.1 i.2.2.2.2).2) rest

/-- a process_offline or process_online stub that returns a success envelope. -/
def okB : String → Option PyDict → Except String PyDict :=
  fun _ _ => .ok [("success", .vBool true)]

/-- a process_offline or process_online stub that raises. -/
def errB : String → Option PyDict → Except String PyDict :=
  fun _ _ => .error "boom"

/-- dynamic agent parts: offline mode, fresh stats, succeeding behaviors. -/
def toyDyn : AgentDyn := ⟨.offline, initStats, okB, okB⟩

/-- dynamic agent parts: auto mode, fresh stats, succeeding behaviors. -/
def autoDyn : AgentDyn := ⟨.auto, initStats, okB, okB⟩

/-- a concrete offline agent with constant confidence, for witnesses. -/
def toyAgent (id : String) (prio : ℕ) (conf : ℚ) : Agent :=
  mkAgent id id prio (fun _ _ => conf) toyDyn

/-- a concrete agent in auto mode, for the mode-resolution witness. -/
def autoAgent : Agent := mkAgent "auto_agent" "Auto Agent" 3 (fun _ _ => 1) autoDyn

/-- a concrete agent whose chosen path always raises. -/
def errAgent : Agent := mkAgent "bad" "Bad Agent" 1 (fun _ _ => 1) ⟨.offline, initStats, errB, errB⟩

/-- an orchestrator whose only (primary) agent raises internally. -/
def c2Orch : Orchestrator := ⟨[("bad", errAgent)], initOrchStats⟩

/-- a two-agent registry with equal confidence and distinct priorities. -/
def c1Reg : List (String × Agent) := [("a", toyAgent "a" 3 0.5), ("b", toyAgent "b" 1 0.5)]

/-- a fallback-only agent that declines every query. -/
def zeroAgent : Agent := mkAgent "offline_knowledge" "OK Fallback" 1 (fun _ _ => 0) toyDyn

/-- an orchestrator on which no agent ever scores above zero. -/
def c5Orch : Orchestrator := ⟨[("offline_knowledge", zeroAgent)], initOrchStats⟩

/-- the real registry instantiated with uniform toy dynamic parts. -/
def realToyOrch : Orchestrator := ⟨realAgents (fun _ => toyDyn), initOrchStats⟩

/-- a registry holding a study_path_planner agent, for the enhancement
witness. -/
def spReg : List (String × Agent) :=
  [("study_path_planner",
    mkAgent "study_path_planner" "SPP" 3 (fun _ _ => 0.8) toyDyn)]

/-- a registry holding a content_discovery agent that raises. -/
def cdErrReg : List (String × Agent) :=
  [("content_discovery",
    mkAgent "content_discovery" "CD" 3 (fun _ _ => 0.85) ⟨.offline, initStats, errB, errB⟩)]

/-- one concrete call input for the stats-invariant witness. -/
def callA : CallIn := ("q", none, none, "t", 1)

/-- the content_discovery attempt made inside _enhance_response fails in the
swallowed sense of the source: the agent is registered (so the line-200
lookup succeeds and no KeyError is raised) and its processed envelope for
the video context has a non-truthy success flag — which is also how an
exception inside the secondary surfaces, since Agent.process converts it to
a success-false envelope. -/
def videoFails (ags : List (String × Agent)) (primary : PyDict) (q : String)
    (c : PyDict) (ts : String) (e : ℚ) : Prop :=
  ∃ p, findAgent ags "content_discovery" = some p ∧
    truthy (dget (p.2.process q
      (some (dset c "subject" ((dget primary "subject").getD .vNone)))
      none ts e).1 "success") = false

/-- a two-agent orchestrator whose primary succeeds and whose secondary is a
qualifying study_path_planner, for the enhancement witness. -/
def c6Orch : Orchestrator :=
  ⟨[("p1", toyAgent "p1" 1 0.9),
    ("study_path_planner", toyAgent "study_path_planner" 3 0.8)],
   initOrchStats⟩

theorem find?_map_set (d : PyDict) (k : String) (v : Val) :
    (d.map (fun p => if p.1 == k then (k, v) else p)).find? (fun p => p.1 == k) =
      if d.any (fun p => p.1 == k) then some (k, v) else none := by
  induction d with
  | nil => simp
  | cons p rest ih =>
    simp only [List.map_cons, List.any_cons]
    by_cases hp : p.1 = k
    · have hb : (p.1 == k) = true := by simp [hp]
      rw [if_pos hb]
      simp [List.find?_cons, hb]
    · have hb : (p.1 == k) = false := by simp [hp]
      rw [if_neg (by simp [hb] : ¬((p.1 == k) = true))]
      rw [List.find?_cons]
      simp only [hb]
      rw [ih]
      rfl

theorem dget_dset_self (d : PyDict) (k : String) (v : Val) :
    dget (dset d k v) k = some v := by
  unfold dget dset
  by_cases h : d.any (fun p => p.1 == k)
  · rw [if_pos h, find?_map_set, if_pos h]
    rfl
  · rw [if_neg h, List.find?_append]
    have hnone : d.find? (fun p => p.1 == k) = none := by
      rw [List.find?_eq_none]
      intro x hx hpx
      exact h (List.any_eq_true.mpr ⟨x, hx, hpx⟩)
    simp [hnone]

theorem find?_map_set_ne (d : PyDict) (k k' : String) (v : Val) (h : k' ≠ k) :
    (d.map (fun p => if p.1 == k then (k, v) else p)).find? (fun p => p.1 == k') =
      d.find? (fun p => p.1 == k') := by
  induction d with
  | nil => simp
  | cons p rest ih =>
    simp only [List.map_cons]
    by_cases hp : p.1 = k
    · have hb : (p.1 == k) = true := by simp [hp]
      have hne : ((k : String) == k') = false := by
        simp only [beq_eq_false_iff_ne, ne_eq]
        exact fun he => h he.symm
      have hne2 : (p.1 == k') = false := by
        simp only [beq_eq_false_iff_ne, ne_eq, hp]
        exact fun he => h he.symm
      rw [if_pos hb, List.find?_cons, List.find?_cons]
      simp only [hne, hne2]
      exact ih
    · have hb : (p.1 == k) = false := by simp [hp]
      rw [if_neg (by simp [hb] : ¬((p.1 == k) = true)), List.find?_cons, List.find?_cons]
      by_cases hq : (p.1 == k') = true
      · simp only [hq]
      · have hq2 : (p.1 == k') = false := by
          cases hval : (p.1 == k') with
          | true => exact absurd hval hq
          | false => rfl
        simp only [hq2]
        exact ih

theorem dget_dset_ne (d : PyDict) (k k' : String) (v : Val) (h : k' ≠ k) :
    dget (dset d k v) k' = dget d k' := by
  unfold dget dset
  by_cases ha : d.any (fun p => p.1 == k)
  · rw [if_pos ha, find?_map_set_ne d k k' v h]
  · rw [if_neg ha, List.find?_append]
    have hne : ((k : String) == k') = false := by
      simp only [beq_eq_false_iff_ne, ne_eq]
      exact fun he => h he.symm
    have hone : ([(k, v)] : PyDict).find? (fun p => p.1 == k') = none := by
      simp [List.find?_cons, hne]
    rw [hone]
    cases d.find? (fun p => p.1 == k') <;> rfl

theorem process_static (a : Agent) (q : String) (ctx : Option PyDict)
    (mode : Option AgentMode) (ts : String) (e : ℚ) :
    ((a.process q ctx mode ts e).2.agent_id = a.agent_id) ∧
    ((a.process q ctx mode ts e).2.name = a.name) ∧
    ((a.process q ctx mode ts e).2.priority = a.priority) ∧
    ((a.process q ctx mode ts e).2.current_mode = a.current_mode) ∧
    ((a.process q ctx mode ts e).2.can_handle = a.can_handle) ∧
    ((a.process q ctx mode ts e).2.process_offline = a.process_offline) ∧
    ((a.process q ctx mode ts e).2.process_online = a.process_online) := by
  unfold Agent.process
  cases hr : runPath a q ctx mode <;> simp

theorem process_total (a : Agent) (q : String) (ctx : Option PyDict)
    (mode : Option AgentMode) (ts : String) (e : ℚ) :
    (a.process q ctx mode ts e).2.stats.total_requests =
      a.stats.total_requests + 1 := by
  unfold Agent.process
  cases hr : runPath a q ctx mode <;> simp [updateAvg] <;> split_ifs <;> rfl

theorem process_succ_or_fail (a : Agent) (q : String) (ctx : Option PyDict)
    (mode : Option AgentMode) (ts : String) (e : ℚ) :
    ((a.process q ctx mode ts e).2.stats.successful_responses =
        a.stats.successful_responses + 1 ∧
      (a.process q ctx mode ts e).2.stats.failed_responses =
        a.stats.failed_responses) ∨
    ((a.process q ctx mode ts e).2.stats.successful_responses =
        a.stats.successful_responses ∧
      (a.process q ctx mode ts e).2.stats.failed_responses =
        a.stats.failed_responses + 1) := by
  unfold Agent.process
  cases hr : runPath a q ctx mode
  · right
    simp [updateAvg]
    split_ifs <;> simp
  · left
    simp [updateAvg]
    split_ifs <;> simp

theorem process_env_mode (a : Agent) (q : String) (ctx : Option PyDict)
    (mode : Option AgentMode) (ts : String) (e : ℚ) :
    dget (a.process q ctx mode ts e).1 "mode" =
      some (.vStr (resolveMode a ctx mode).value) := by
  unfold Agent.process
  cases hr : runPath a q ctx mode
  · simp only []
    rfl
  · simp only []
    rw [dget_dset_ne _ _ _ _ (by decide), dget_dset_ne _ _ _ _ (by decide),
      dget_dset_self]

theorem process_env_agent_id (a : Agent) (q : String) (ctx : Option PyDict)
    (mode : Option AgentMode) (ts : String) (e : ℚ) :
    dget (a.process q ctx mode ts e).1 "agent_id" = some (.vStr a.agent_id) := by
  unfold Agent.process
  cases hr : runPath a q ctx mode
  · simp only []
    rfl
  · simp only []
    rw [dget_dset_ne _ _ _ _ (by decide), dget_dset_ne _ _ _ _ (by decide),
      dget_dset_ne _ _ _ _ (by decide), dget_dset_ne _ _ _ _ (by decide),
      dget_dset_self]

theorem process_env_agent_name (a : Agent) (q : String) (ctx : Option PyDict)
    (mode : Option AgentMode) (ts : String) (e : ℚ) :
    dget (a.process q ctx mode ts e).1 "agent_name" = some (.vStr a.name) := by
  unfold Agent.process
  cases hr : runPath a q ctx mode
  · simp only []
    rfl
  · simp only []
    rw [dget_dset_ne _ _ _ _ (by decide), dget_dset_ne _ _ _ _ (by decide),
      dget_dset_ne _ _ _ _ (by decide), dget_dset_self]

theorem process_env_timestamp (a : Agent) (q : String) (ctx : Option PyDict)
    (mode : Option AgentMode) (ts : String) (e : ℚ) :
    dget (a.process q ctx mode ts e).1 "timestamp" = some (.vStr ts) := by
  unfold Agent.process
  cases hr : runPath a q ctx mode
  · simp only []
    rfl
  · simp only []
    rw [dget_dset_ne _ _ _ _ (by decide), dget_dset_self]

theorem process_env_rtms_ok (a : Agent) (q : String) (ctx : Option PyDict)
    (mode : Option AgentMode) (ts : String) (e : ℚ) (r : PyDict)
    (h : runPath a q ctx mode = Except.ok r) :
    dget (a.process q ctx mode ts e).1 "response_time_ms" = some (.vNum e) := by
  unfold Agent.process
  rw [h]
  simp only []
  rw [dget_dset_self]

theorem process_env_rtms_error (a : Agent) (q : String) (ctx : Option PyDict)
    (mode : Option AgentMode) (ts : String) (e : ℚ) (err : String)
    (h : runPath a q ctx mode = Except.error err) :
    dget (a.process q ctx mode ts e).1 "response_time_ms" = none ∧
    dget (a.process q ctx mode ts e).1 "success" = some (.vBool false) ∧
    dget (a.process q ctx mode ts e).1 "error" = some (.vStr err) := by
  unfold Agent.process
  rw [h]
  exact ⟨rfl, rfl, rfl⟩

theorem updateAvg_formula (s : AgentStats) (e : ℚ) :
    (updateAvg s e).successful_responses = s.successful_responses ∧
    (updateAvg s e).avg_response_time_ms =
      if s.successful_responses = 1 then e
      else (s.avg_response_time_ms * ((s.successful_responses : ℚ) - 1) + e) /
        (s.successful_responses : ℚ) := by
  unfold updateAvg
  by_cases h1 : s.successful_responses = 1
  · rw [if_pos h1, if_pos h1]
    exact ⟨rfl, rfl⟩
  · rw [if_neg h1, if_neg h1]
    exact ⟨rfl, rfl⟩

theorem process_ok_stats_eq (a : Agent) (q : String) (ctx : Option PyDict)
    (mode : Option AgentMode) (ts : String) (e : ℚ) (r : PyDict)
    (h : runPath a q ctx mode = Except.ok r) :
    ∃ s : AgentStats, (a.process q ctx mode ts e).2.stats = updateAvg s e ∧
      s.successful_responses = a.stats.successful_responses + 1 ∧
      s.avg_response_time_ms = a.stats.avg_response_time_ms := by
  unfold Agent.process
  rw [h]
  simp only []
  by_cases hm : resolveMode a ctx mode = AgentMode.offline
  · rw [if_pos hm]
    exact ⟨_, rfl, rfl, rfl⟩
  · rw [if_neg hm]
    exact ⟨_, rfl, rfl, rfl⟩

/-- C8: on every normal return of BaseAgent.process, the stored average
response time becomes (avg * (n - 1) + new) / n where n is the post-increment
successful_responses count and new is the elapsed time of this call; in
particular when n = 1 the stored average is exactly the new time. -/
theorem c8_avg_incremental_mean (a : Agent) (q : String) (ctx : Option PyDict)
    (mode : Option AgentMode) (ts : String) (e : ℚ) (r : PyDict)
    (h : runPath a q ctx mode = Except.ok r) :
    ((a.process q ctx mode ts e).2.stats.successful_responses =
      a.stats.successful_responses + 1) ∧
    ((a.process q ctx mode ts e).2.stats.avg_response_time_ms =
      (a.stats.avg_response_time_ms *
          (((a.process q ctx mode ts e).2.stats.successful_responses : ℚ) - 1) + e) /
        ((a.process q ctx mode ts e).2.stats.successful_responses : ℚ)) ∧
    ((a.process q ctx mode ts e).2.stats.successful_responses = 1 →
      (a.process q ctx mode ts e).2.stats.avg_response_time_ms = e) := by
  obtain ⟨s, hs, hsucc, havg⟩ := process_ok_stats_eq a q ctx mode ts e r h
  obtain ⟨hf1, hf2⟩ := updateAvg_formula s e
  rw [hs, hf1, hf2, hsucc, havg]
  refine ⟨rfl, ?_, ?_⟩
  · by_cases h1 : a.stats.successful_responses + 1 = 1
    · rw [if_pos h1]
      have h0 : a.stats.successful_responses = 0 := by omega
      rw [h0]
      norm_num
    · rw [if_neg h1]
  · intro h1
    rw [if_pos h1]

theorem applyCalls_total (a : Agent) (calls : List CallIn) :
    (applyCalls a calls).stats.total_requests =
      a.stats.total_requests + calls.length := by
  induction calls generalizing a with
  | nil => simp [applyCalls]
  | cons i rest ih =>
    rw [applyCalls, ih, process_total, List.length_cons]
    omega

theorem applyCalls_inv (a : Agent) (calls : List CallIn)
    (h : a.stats.successful_responses + a.stats.failed_responses =
      a.stats.total_requests) :
    (applyCalls a calls).stats.successful_responses +
      (applyCalls a calls).stats.failed_responses =
      (applyCalls a calls).stats.total_requests := by
  induction calls generalizing a with
  | nil => simpa [applyCalls] using h
  | cons i rest ih =>
    rw [applyCalls]
    apply ih
    rcases process_succ_or_fail a i.1 i.2.1 i.2.2.1 i.2.2.2.1 i.2.2.2.2 with
      ⟨h1, h2⟩ | ⟨h1, h2⟩ <;> rw [h1, h2, process_total] <;> omega

/-- C9: across any sequence of BaseAgent.process calls the invariant
successful_responses + failed_responses = total_requests is preserved after
each call, and a freshly constructed agent that serves N normally returning
calls ends with total_requests = N. -/
theorem c9_stats_monotonicity (a : Agent) (calls : List CallIn) :
    ((a.stats.successful_responses + a.stats.failed_responses =
        a.stats.total_requests) →
      ∀ n : ℕ,
        (applyCalls a (calls.take n)).stats.successful_responses +
          (applyCalls a (calls.take n)).stats.failed_responses =
          (applyCalls a (calls.take n)).stats.total_requests) ∧
    (a.stats = initStats →
      (∀ i ∈ calls, ∃ r, runPath a i.1 i.2.1 i.2.2.1 = Except.ok r) →
      (applyCalls a calls).stats.total_requests = calls.length) := by
  constructor
  · intro h n
    exact applyCalls_inv a (calls.take n) h
  · intro h _hok
    rw [applyCalls_total, h]
    simp [initStats]

/-- witness for C9 at a concrete fresh agent and two normally returning calls. -/
theorem c9_stats_monotonicity_witness :
    ((applyCalls (toyAgent "w9" 1 1) ([callA, callA].take 2)).stats.successful_responses +
      (applyCalls (toyAgent "w9" 1 1) ([callA, callA].take 2)).stats.failed_responses =
      (applyCalls (toyAgent "w9" 1 1) ([callA, callA].take 2)).stats.total_requests) ∧
    (applyCalls (toyAgent "w9" 1 1) [callA, callA]).stats.total_requests = 2 := by
  have h := c9_stats_monotonicity (toyAgent "w9" 1 1) [callA, callA]
  constructor
  · exact h.1 rfl 2
  · refine h.2 rfl ?_
    intro i hi
    simp only [List.mem_cons, List.not_mem_nil, or_false] at hi
    rcases hi with rfl | rfl <;> exact ⟨_, rfl⟩

/-- C4: with no mode override and current mode AUTO, the execution mode is
ONLINE exactly when the context carries has_internet = true, and OFFLINE when
the context is absent or lacks the has_internet key. -/
theorem c4_auto_mode_resolution (a : Agent) (q : String) (ctx : Option PyDict)
    (ts : String) (e : ℚ) (h : a.current_mode = AgentMode.auto) :
    (∀ c b, ctx = some c → dget c "has_internet" = some (.vBool b) →
      dget (a.process q ctx none ts e).1 "mode" =
        some (.vStr (if b then "online" else "offline"))) ∧
    (ctx = none →
      dget (a.process q ctx none ts e).1 "mode" = some (.vStr "offline")) ∧
    (∀ c, ctx = some c → dget c "has_internet" = none →
      dget (a.process q ctx none ts e).1 "mode" = some (.vStr "offline")) := by
  have hm : resolveMode a ctx none =
      if checkConnectivity ctx then AgentMode.online else AgentMode.offline := by
    simp [resolveMode, h]
  refine ⟨?_, ?_, ?_⟩
  · intro c b hc hd
    subst hc
    have hne : c.isEmpty = false := by
      cases c with
      | nil => simp [dget] at hd
      | cons p rest => rfl
    have hcon : checkConnectivity (some c) = b := by
      simp [checkConnectivity, hne, hd, truthy]
    rw [process_env_mode, hm, hcon]
    cases b <;> rfl
  · intro hc
    subst hc
    rw [process_env_mode, hm]
    rfl
  · intro c hc hd
    subst hc
    have hcon : checkConnectivity (some c) = false := by
      simp only [checkConnectivity]
      split_ifs
      · rfl
      · rw [hd]
    rw [process_env_mode, hm, hcon]
    rfl

/-- witness for C4 at one agent in AUTO mode, with and without the
has_internet context key. -/
theorem c4_auto_mode_resolution_witness :
    dget (autoAgent.process "q" (some [("has_internet", Val.vBool true)]) none "t" 0).1
        "mode" = some (.vStr "online") ∧
    dget (autoAgent.process "q" none none "t" 0).1 "mode" =
      some (.vStr "offline") := by
  constructor
  · exact (c4_auto_mode_resolution autoAgent "q"
      (some [("has_internet", Val.vBool true)]) "t" 0 rfl).1
      [("has_internet", Val.vBool true)] true rfl rfl
  · exact (c4_auto_mode_resolution autoAgent "q" none "t" 0 rfl).2.1 rfl

/-- witness for C8 at a concrete fresh agent: after one call taking 5 ms the
stored average is exactly 5. -/
theorem c8_avg_incremental_mean_witness :
    ((toyAgent "w8" 1 1).process "q" none none "t" 5).2.stats.avg_response_time_ms
      = 5 := by
  have h := c8_avg_incremental_mean (toyAgent "w8" 1 1) "q" none none "t" 5
    [("success", Val.vBool true)] rfl
  exact h.2.2 h.1

theorem scoredAgents_eq_filter (ags : List (String × Agent)) (q : String) (c : PyDict) :
    scoredAgents ags q c =
      (ags.map (fun p => (p.1, p.2.can_handle q c, p.2.priority))).filter
        (fun t => decide (0 < t.2.1)) := by
  induction ags with
  | nil => rfl
  | cons p rest ih =>
    simp only [scoredAgents, List.filterMap_cons, List.map_cons, List.filter_cons] at *
    by_cases h0 : 0 < p.2.can_handle q c
    · rw [if_pos h0, ih]
      simp [h0]
    · rw [if_neg h0, ih]
      simp [h0]

theorem sortedScored_sorted (ags : List (String × Agent)) (q : String) (c : PyDict) :
    List.Sorted selRel (sortedScored ags q c) :=
  List.sorted_insertionSort selRel (scoredAgents ags q c)

theorem sel3_pairwise (ags : List (String × Agent)) (q : String) (c : PyDict) :
    List.Pairwise selRel (sel3 ags q c) :=
  List.Pairwise.sublist (List.take_sublist 3 (sortedScored ags q c))
    (sortedScored_sorted ags q c)

theorem mem_scored_of_mem_sel3 (ags : List (String × Agent)) (q : String)
    (c : PyDict) (t : String × ℚ × ℕ) (h : t ∈ sel3 ags q c) :
    t ∈ scoredAgents ags q c := by
  have h1 : t ∈ sortedScored ags q c := List.mem_of_mem_take h
  exact (List.perm_insertionSort selRel (scoredAgents ags q c)).mem_iff.mp h1

/-- C1: _select_agents returns exactly the registered agents scoring strictly
above 0, as the first three entries of the stable sort by descending
confidence and, among equal confidences, ascending priority ordinal; in
particular among equal confidences the entry with the smaller priority
ordinal comes first. -/
theorem c1_select_agents_contract (ags : List (String × Agent)) (q : String)
    (c : PyDict) :
    (selectAgents ags q c = (sel3 ags q c).map (fun t => (t.1, t.2.1))) ∧
    (sel3 ags q c = (sortedScored ags q c).take 3) ∧
    ((selectAgents ags q c).length ≤ 3) ∧
    (scoredAgents ags q c =
      (ags.map (fun p => (p.1, p.2.can_handle q c, p.2.priority))).filter
        (fun t => decide (0 < t.2.1))) ∧
    ((sortedScored ags q c).Perm (scoredAgents ags q c)) ∧
    (∀ pr ∈ selectAgents ags q c, 0 < pr.2) ∧
    (∀ i j : Fin (sel3 ags q c).length, i < j →
      (((sel3 ags q c).get j).2.1 ≤ ((sel3 ags q c).get i).2.1 ∧
       (((sel3 ags q c).get i).2.1 = ((sel3 ags q c).get j).2.1 →
        ((sel3 ags q c).get i).2.2 ≤ ((sel3 ags q c).get j).2.2))) := by
  refine ⟨rfl, rfl, ?_, scoredAgents_eq_filter ags q c,
    List.perm_insertionSort selRel (scoredAgents ags q c), ?_, ?_⟩
  · simp only [selectAgents, sel3, List.length_map, List.length_take]
    omega
  · intro pr hpr
    obtain ⟨t, ht, hpr2⟩ := List.mem_map.mp hpr
    have hs := mem_scored_of_mem_sel3 ags q c t ht
    rw [scoredAgents_eq_filter] at hs
    have hpos := List.of_mem_filter hs
    rw [← hpr2]
    simpa using hpos
  · intro i j hij
    have hrel := List.pairwise_iff_get.mp (sel3_pairwise ags q c) i j hij
    rcases hrel with hlt | ⟨heq, hle⟩
    · refine ⟨le_of_lt hlt, ?_⟩
      intro heq2
      rw [heq2] at hlt
      exact absurd hlt (lt_irrefl _)
    · exact ⟨le_of_eq heq.symm, fun _ => hle⟩

/-- witness for C1: at a concrete registry with two agents of equal
confidence and priorities 3 and 1, the priority-1 agent is ranked first and
every selected entry scores above 0. -/
theorem c1_select_agents_contract_witness :
    (((sel3 c1Reg "q" []).get ⟨0, by with_unfolding_all decide⟩).2.2 ≤
      ((sel3 c1Reg "q" []).get ⟨1, by with_unfolding_all decide⟩).2.2) ∧
    (0 : ℚ) < (("b", (0.5 : ℚ)) : String × ℚ).2 := by
  have h := c1_select_agents_contract c1Reg "q" []
  constructor
  · exact (h.2.2.2.2.2.2 ⟨0, by with_unfolding_all decide⟩
      ⟨1, by with_unfolding_all decide⟩ (by with_unfolding_all decide)).2
      (by with_unfolding_all decide)
  · exact h.2.2.2.2.2.1 ("b", (0.5 : ℚ)) (by with_unfolding_all decide)

theorem offlineKnowledge_score_ge (q : String) (c : PyDict) :
    (0.3 : ℚ) ≤ offlineKnowledgeCanHandle q c := by
  unfold offlineKnowledgeCanHandle
  dsimp only
  split_ifs <;> norm_num

theorem offlineKnowledge_mem_scored (d : String → AgentDyn) (q : String)
    (c : PyDict) :
    ("offline_knowledge", offlineKnowledgeCanHandle q c, 1) ∈
      scoredAgents (realAgents d) q c := by
  have h0 : (0 : ℚ) < offlineKnowledgeCanHandle q c :=
    lt_of_lt_of_le (by norm_num) (offlineKnowledge_score_ge q c)
  apply List.mem_filterMap.mpr
  refine ⟨("offline_knowledge",
    mkAgent "offline_knowledge" "Offline Knowledge Agent" 1
      offlineKnowledgeCanHandle (d "offline_knowledge")), ?_, ?_⟩
  · exact List.mem_cons_self _ _
  · simp only [mkAgent]
    rw [if_pos h0]

theorem select_real_ne_nil (d : String → AgentDyn) (q : String) (c : PyDict) :
    selectAgents (realAgents d) q c ≠ [] := by
  intro hemp
  have hmem := offlineKnowledge_mem_scored d q c
  have h1 := congrArg List.length hemp
  simp only [selectAgents, sel3, List.length_map, List.length_take,
    List.length_nil] at h1
  have h2 : (sortedScored (realAgents d) q c).length =
      (scoredAgents (realAgents d) q c).length :=
    (List.perm_insertionSort selRel (scoredAgents (realAgents d) q c)).length_eq
  rw [h2] at h1
  have h3 : (scoredAgents (realAgents d) q c).length = 0 := by omega
  rw [List.length_eq_zero.mp h3] at hmem
  exact List.not_mem_nil _ hmem

/-- C10: OfflineKnowledgeAgent.can_handle scores at least 0.3 on every query
and context, so on the registry built by _initialize_agents the selection of
_select_agents is never empty: the first match branch of process_query (the
no-agent fallback that tags is_fallback) is guarded by an empty selection and
can never be taken. -/
theorem c10_fallback_branch_unreachable (d : String → AgentDyn) (q : String)
    (c : PyDict) :
    ((0.3 : ℚ) ≤ offlineKnowledgeCanHandle q c) ∧
    (∃ pid conf rest, selectAgents (realAgents d) q c = (pid, conf) :: rest) := by
  refine ⟨offlineKnowledge_score_ge q c, ?_⟩
  cases hsel : selectAgents (realAgents d) q c with
  | nil => exact absurd hsel (select_real_ne_nil d q c)
  | cons hd tl => exact ⟨hd.1, hd.2, tl, by rw [← hsel]⟩

theorem bool_not_eq_true {b : Bool} (h : ¬b = true) : b = false := by
  cases b
  · rfl
  · exact absurd rfl h

theorem find?_map_bump (u : List (String × ℕ)) (id : String) :
    (u.map (fun p => if p.1 == id then (p.1, p.2 + 1) else p)).find?
        (fun p => p.1 == id) =
      (u.find? (fun p => p.1 == id)).map (fun p => (p.1, p.2 + 1)) := by
  induction u with
  | nil => rfl
  | cons p rest ih =>
    simp only [List.map_cons]
    by_cases hp : (p.1 == id) = true
    · rw [if_pos hp, List.find?_cons, List.find?_cons]
      simp only [hp]
      rfl
    · have hpf : (p.1 == id) = false := bool_not_eq_true hp
      rw [if_neg hp, List.find?_cons, List.find?_cons]
      simp only [hpf]
      exact ih

theorem find?_map_bump_ne (u : List (String × ℕ)) (id id' : String)
    (h : id' ≠ id) :
    (u.map (fun p => if p.1 == id then (p.1, p.2 + 1) else p)).find?
        (fun p => p.1 == id') =
      u.find? (fun p => p.1 == id') := by
  induction u with
  | nil => rfl
  | cons p rest ih =>
    simp only [List.map_cons]
    by_cases hp : (p.1 == id) = true
    · have hp1 : p.1 = id := by simpa using hp
      have hq : (p.1 == id') = false := by
        simp only [beq_eq_false_iff_ne, ne_eq, hp1]
        exact fun he => h he.symm
      rw [if_pos hp, List.find?_cons, List.find?_cons]
      simp only [hq]
      exact ih
    · rw [if_neg hp, List.find?_cons, List.find?_cons]
      by_cases hq : (p.1 == id') = true
      · simp only [hq]
      · have hqf : (p.1 == id') = false := bool_not_eq_true hq
        simp only [hqf]
        exact ih

theorem usageOf_bumpUsage_self (u : List (String × ℕ)) (id : String) :
    usageOf (bumpUsage u id) id = usageOf u id + 1 := by
  unfold usageOf bumpUsage
  by_cases ha : u.any (fun p => p.1 == id)
  · rw [if_pos ha, find?_map_bump]
    obtain ⟨x, hx, hpx⟩ := List.any_eq_true.mp ha
    have hsome : (u.find? (fun p => p.1 == id)).isSome := by
      rw [List.find?_isSome]
      exact ⟨x, hx, hpx⟩
    obtain ⟨pe, hpe⟩ := Option.isSome_iff_exists.mp hsome
    rw [hpe]
    rfl
  · rw [if_neg ha, List.find?_append]
    have hnone : u.find? (fun p => p.1 == id) = none := by
      rw [List.find?_eq_none]
      intro x hx hpx
      exact ha (List.any_eq_true.mpr ⟨x, hx, hpx⟩)
    rw [hnone]
    simp [List.find?_cons]

theorem usageOf_bumpUsage_ne (u : List (String × ℕ)) (id id' : String)
    (h : id' ≠ id) :
    usageOf (bumpUsage u id) id' = usageOf u id' := by
  unfold usageOf bumpUsage
  by_cases ha : u.any (fun p => p.1 == id)
  · rw [if_pos ha, find?_map_bump_ne u id id' h]
  · rw [if_neg ha, List.find?_append]
    have hb : ((id : String) == id') = false := by
      simp only [beq_eq_false_iff_ne, ne_eq]
      exact fun he => h he.symm
    have hone : ([(id, 1)] : List (String × ℕ)).find? (fun p => p.1 == id') = none := by
      simp [List.find?_cons, hb]
    rw [hone]
    cases u.find? (fun p => p.1 == id') <;> rfl

theorem mem_ags_of_mem_scored (ags : List (String × Agent)) (q : String)
    (c : PyDict) (t : String × ℚ × ℕ) (h : t ∈ scoredAgents ags q c) :
    ∃ p ∈ ags, p.1 = t.1 := by
  obtain ⟨p, hp, hf⟩ := List.mem_filterMap.mp h
  refine ⟨p, hp, ?_⟩
  simp only [] at hf
  by_cases h0 : 0 < p.2.can_handle q c
  · rw [if_pos h0] at hf
    cases hf
    rfl
  · rw [if_neg h0] at hf
    cases hf

theorem findAgent_of_selected (ags : List (String × Agent)) (q : String)
    (c : PyDict) (pid : String) (conf : ℚ)
    (h : (pid, conf) ∈ selectAgents ags q c) :
    ∃ pe, findAgent ags pid = some pe := by
  obtain ⟨t, ht, heq⟩ := List.mem_map.mp h
  have hid : t.1 = pid := congrArg Prod.fst heq
  have hs := mem_scored_of_mem_sel3 ags q c t ht
  obtain ⟨p, hp, hpt⟩ := mem_ags_of_mem_scored ags q c t hs
  have hsome : (ags.find? (fun p => p.1 == pid)).isSome := by
    rw [List.find?_isSome]
    exact ⟨p, hp, by simp [hpt, hid]⟩
  exact Option.isSome_iff_exists.mp hsome

theorem findAgent_isSome_setAgent (ags : List (String × Agent)) (id : String)
    (a : Agent) (k : String) :
    (findAgent (setAgent ags id a) k).isSome = (findAgent ags k).isSome := by
  unfold findAgent setAgent
  induction ags with
  | nil => rfl
  | cons p rest ih =>
    simp only [List.map_cons]
    by_cases hp : (p.1 == id) = true
    · rw [if_pos hp, List.find?_cons, List.find?_cons]
      cases hq : (p.1 == k) with
      | false =>
        simp only [hq]
        exact ih
      | true => simp only [hq, Option.isSome_some]
    · rw [if_neg hp, List.find?_cons, List.find?_cons]
      cases hq : (p.1 == k) with
      | false =>
        simp only [hq]
        exact ih
      | true => simp only [hq]

theorem enhanceStep_isOk (q : String) (c : PyDict) (ts : String) (e : ℚ)
    (primary : PyDict) (acc : EnhState) (entry : String × ℚ)
    (h : (findAgent acc.2.1 entry.1).isSome = true) :
    ∃ out, enhanceStep q c ts e primary acc entry = Except.ok out ∧
      ∀ k, (findAgent out.2.1 k).isSome = (findAgent acc.2.1 k).isSome := by
  obtain ⟨p, hp⟩ := Option.isSome_iff_exists.mp h
  unfold enhanceStep
  dsimp only
  rw [hp]
  refine ⟨_, rfl, ?_⟩
  intro k
  split_ifs with h1 h2 h3 h4
  · exact findAgent_isSome_setAgent _ _ _ _
  · exact findAgent_isSome_setAgent _ _ _ _
  · rfl
  · rfl
  · rfl

theorem enhLoopGo_isOk (q : String) (c : PyDict) (ts : String) (e : ℚ)
    (primary : PyDict) (l : List (String × ℚ)) (acc : EnhState)
    (h : ∀ entry ∈ l, (findAgent acc.2.1 entry.1).isSome = true) :
    ∃ out, enhLoopGo q c ts e primary l acc = Except.ok out := by
  induction l generalizing acc with
  | nil => exact ⟨acc, rfl⟩
  | cons x xs ih =>
    obtain ⟨acc', hs, hpres⟩ := enhanceStep_isOk q c ts e primary acc x
      (h x (List.mem_cons_self _ _))
    obtain ⟨out, hout⟩ := ih acc' (fun entry hm => by
      rw [hpres entry.1]
      exact h entry (List.mem_cons_of_mem _ hm))
    refine ⟨out, ?_⟩
    simp only [enhLoopGo]
    rw [hs]
    exact hout

theorem enhanceResponse_isOk (ags : List (String × Agent)) (primary : PyDict)
    (secs : List (String × ℚ)) (q : String) (c : PyDict) (ts : String)
    (e : ℚ)
    (h : ∀ entry ∈ secs.take 2, (findAgent ags entry.1).isSome = true) :
    ∃ st, enhanceResponse ags primary secs q c ts e = Except.ok st := by
  obtain ⟨out, hout⟩ := enhLoopGo_isOk q c ts e primary (secs.take 2)
    ([], ags, []) h
  unfold enhanceResponse enhLoop
  rw [hout]
  exact ⟨_, rfl⟩

theorem processQuery_main (o : Orchestrator) (q : String) (ctx : Option PyDict)
    (ts : String) (e1 e2 : ℚ) (pid : String) (conf : ℚ)
    (rest : List (String × ℚ)) (pe : String × Agent)
    (hsel : selectAgents o.agents q (ctx.getD []) = (pid, conf) :: rest)
    (hfind : findAgent o.agents pid = some pe) :
    processQuery o q ctx ts e1 e2 =
      (let st := { o.stats with total_queries := o.stats.total_queries + 1 }
       let c := ctx.getD []
       let res := pe.2.process q (some c) none ts e1
       let ags1 := setAgent o.agents pid res.2
       let er :=
         if rest ≠ [] ∧ truthy (dget res.1 "success") then
           enhanceResponse ags1 res.1 rest q c ts e1
         else .ok (res.1, ags1, [])
       match er with
       | .error ex =>
           (pipelineErrorEnvelope ex.1 ts,
            { agents := ex.2.1,
              stats := { st with failed_responses := st.failed_responses + 1 } },
            [pid] ++ ex.2.2)
       | .ok e2r =>
           let st2 :=
             if truthy (dget e2r.1 "success") then
               { st with successful_responses := st.successful_responses + 1 }
             else { st with failed_responses := st.failed_responses + 1 }
           let st3 := { st2 with agent_usage := bumpUsage st2.agent_usage pid }
           (dset e2r.1 "total_response_time_ms" (.vNum e2),
            { agents := e2r.2.1, stats := st3 }, [pid] ++ e2r.2.2)) := by
  simp only [processQuery]
  rw [hsel]
  dsimp only
  rw [hfind]

/-- C3: every process_query call on the real registry updates the
orchestrator statistics exactly once: total_queries by one, exactly one of
successful_responses or failed_responses by one, and agent_usage by one for
the top-ranked primary agent only, never for a secondary agent. -/
theorem c3_stats_exactly_once (d : String → AgentDyn) (st : OrchStats)
    (q : String) (ctx : Option PyDict) (ts : String) (e1 e2 : ℚ) :
    ((processQuery ⟨realAgents d, st⟩ q ctx ts e1 e2).2.1.stats.total_queries =
      st.total_queries + 1) ∧
    (((processQuery ⟨realAgents d, st⟩ q ctx ts e1 e2).2.1.stats.successful_responses =
        st.successful_responses + 1 ∧
      (processQuery ⟨realAgents d, st⟩ q ctx ts e1 e2).2.1.stats.failed_responses =
        st.failed_responses) ∨
     ((processQuery ⟨realAgents d, st⟩ q ctx ts e1 e2).2.1.stats.successful_responses =
        st.successful_responses ∧
      (processQuery ⟨realAgents d, st⟩ q ctx ts e1 e2).2.1.stats.failed_responses =
        st.failed_responses + 1)) ∧
    (∃ pid conf rest,
      selectAgents (realAgents d) q (ctx.getD []) = (pid, conf) :: rest ∧
      usageOf (processQuery ⟨realAgents d, st⟩ q ctx ts e1 e2).2.1.stats.agent_usage pid =
        usageOf st.agent_usage pid + 1 ∧
      (∀ id, id ≠ pid →
        usageOf (processQuery ⟨realAgents d, st⟩ q ctx ts e1 e2).2.1.stats.agent_usage id =
          usageOf st.agent_usage id)) := by
  cases hsel : selectAgents (realAgents d) q (ctx.getD []) with
  | nil => exact absurd hsel (select_real_ne_nil d q (ctx.getD []))
  | cons hd tl =>
    obtain ⟨pid, conf⟩ := hd
    obtain ⟨pe, hfind⟩ := findAgent_of_selected (realAgents d) q (ctx.getD [])
      pid conf (by rw [hsel]; exact List.mem_cons_self _ _)
    have hmain := processQuery_main ⟨realAgents d, st⟩ q ctx ts e1 e2
      pid conf tl pe hsel hfind
    rw [hmain]
    dsimp only
    have hentries : ∀ entry ∈ tl.take 2,
        (findAgent (setAgent (realAgents d) pid
          (pe.2.process q (some (ctx.getD [])) none ts e1).2) entry.1).isSome
          = true := by
      intro entry hm
      rw [findAgent_isSome_setAgent]
      have hmem : (entry.1, entry.2) ∈
          selectAgents (realAgents d) q (ctx.getD []) := by
        rw [hsel]
        exact List.mem_cons_of_mem _ (List.mem_of_mem_take hm)
      obtain ⟨pe2, hpe2⟩ := findAgent_of_selected (realAgents d) q (ctx.getD [])
        entry.1 entry.2 hmem
      rw [hpe2]
      rfl
    by_cases hcond : tl ≠ [] ∧
        truthy (dget (pe.2.process q (some (ctx.getD [])) none ts e1).1
          "success") = true
    · rw [if_pos hcond]
      obtain ⟨stE, hstE⟩ := enhanceResponse_isOk _ _ tl q (ctx.getD []) ts e1
        hentries
      rw [hstE]
      dsimp only
      split_ifs <;>
        first
          | exact ⟨rfl, Or.inl ⟨rfl, rfl⟩, pid, conf, tl, rfl,
              usageOf_bumpUsage_self _ _,
              fun id hid => usageOf_bumpUsage_ne _ _ _ hid⟩
          | exact ⟨rfl, Or.inr ⟨rfl, rfl⟩, pid, conf, tl, rfl,
              usageOf_bumpUsage_self _ _,
              fun id hid => usageOf_bumpUsage_ne _ _ _ hid⟩
    · rw [if_neg hcond]
      dsimp only
      split_ifs <;>
        first
          | exact ⟨rfl, Or.inl ⟨rfl, rfl⟩, pid, conf, tl, rfl,
              usageOf_bumpUsage_self _ _,
              fun id hid => usageOf_bumpUsage_ne _ _ _ hid⟩
          | exact ⟨rfl, Or.inr ⟨rfl, rfl⟩, pid, conf, tl, rfl,
              usageOf_bumpUsage_self _ _,
              fun id hid => usageOf_bumpUsage_ne _ _ _ hid⟩

/-- witness for C3 on the concrete query hello without context: the primary
agent is study_assistant; its usage counter rises to 1, an unselected agent
stays at 0, and total_queries becomes 1. -/
theorem c3_stats_exactly_once_witness :
    usageOf (processQuery realToyOrch "hello" none "t" 1 2).2.1.stats.agent_usage
        "study_assistant" = 1 ∧
    usageOf (processQuery realToyOrch "hello" none "t" 1 2).2.1.stats.agent_usage
        "accessibility" = 0 ∧
    (processQuery realToyOrch "hello" none "t" 1 2).2.1.stats.total_queries = 1 := by
  obtain ⟨htot, _hsf, pid, conf, rest, hsel, hself, hother⟩ :=
    c3_stats_exactly_once (fun _ => toyDyn) initOrchStats "hello" none "t" 1 2
  have hcomp : selectAgents (realAgents (fun _ => toyDyn)) "hello"
      ((none : Option PyDict).getD []) =
      [("study_assistant", 0.4), ("offline_knowledge", 0.3),
       ("content_discovery", 0.3)] := by
    with_unfolding_all rfl
  rw [hcomp] at hsel
  have hpid : pid = "study_assistant" := by
    have h1 := congrArg (fun l => List.head? l) hsel
    simp only [List.head?_cons, Option.some.injEq] at h1
    exact (congrArg Prod.fst h1).symm
  subst hpid
  refine ⟨hself, ?_, htot⟩
  exact hother "accessibility" (by decide)

theorem scored_eq_nil_of_all_zero (ags : List (String × Agent)) (q : String)
    (c : PyDict) (hall : ∀ p ∈ ags, p.2.can_handle q c = 0) :
    scoredAgents ags q c = [] := by
  unfold scoredAgents
  rw [List.filterMap_eq_nil_iff]
  intro p hp
  dsimp only
  rw [hall p hp]
  rw [if_neg (lt_irrefl 0)]

theorem select_eq_nil_of_all_zero (ags : List (String × Agent)) (q : String)
    (c : PyDict) (hall : ∀ p ∈ ags, p.2.can_handle q c = 0) :
    selectAgents ags q c = [] := by
  unfold selectAgents sel3 sortedScored
  rw [scored_eq_nil_of_all_zero ags q c hall]
  rfl

/-- C5: when every registered agent scores 0 (so selection is empty),
process_query does not fail: it returns the envelope produced by the
offline_knowledge fallback agent with is_fallback set to true. -/
theorem c5_fallback_envelope (o : Orchestrator) (q : String)
    (ctx : Option PyDict) (ts : String) (e1 e2 : ℚ) (fa : String × Agent)
    (hall : ∀ p ∈ o.agents, p.2.can_handle q (ctx.getD []) = 0)
    (hfa : findAgent o.agents "offline_knowledge" = some fa) :
    ((processQuery o q ctx ts e1 e2).1 =
      dset (fa.2.process q (some (ctx.getD [])) none ts e1).1 "is_fallback"
        (.vBool true)) ∧
    dget (processQuery o q ctx ts e1 e2).1 "is_fallback" =
      some (.vBool true) := by
  have hsel := select_eq_nil_of_all_zero o.agents q (ctx.getD []) hall
  have hred : processQuery o q ctx ts e1 e2 =
      (dset (fa.2.process q (some (ctx.getD [])) none ts e1).1 "is_fallback"
        (.vBool true),
       { agents := setAgent o.agents fa.1
           (fa.2.process q (some (ctx.getD [])) none ts e1).2,
         stats := { o.stats with
           total_queries := o.stats.total_queries + 1 } }, [fa.1]) := by
    simp only [processQuery]
    rw [hsel]
    dsimp only
    rw [hfa]
  rw [hred]
  exact ⟨rfl, dget_dset_self _ _ _⟩

/-- witness for C5: an orchestrator whose single registered agent (the
offline_knowledge fallback) scores 0 on every query still answers, tagging
is_fallback true. -/
theorem c5_fallback_envelope_witness :
    dget (processQuery c5Orch "zzz" none "t" 1 2).1 "is_fallback" =
      some (.vBool true) := by
  have hall : ∀ p ∈ c5Orch.agents,
      p.2.can_handle "zzz" ((none : Option PyDict).getD []) = 0 := by
    intro p hp
    have hp2 : p ∈ [("offline_knowledge", zeroAgent)] := hp
    rcases List.mem_cons.mp hp2 with h | h
    · subst h
      rfl
    · exact absurd h (List.not_mem_nil p)
  exact (c5_fallback_envelope c5Orch "zzz" none "t" 1 2
    ("offline_knowledge", zeroAgent) hall rfl).2

theorem enhanceStep_trace (q : String) (c : PyDict) (ts : String) (e : ℚ)
    (primary : PyDict) (acc : EnhState) (entry : String × ℚ) (out : EnhState)
    (hok : enhanceStep q c ts e primary acc entry = Except.ok out) :
    (out.2.2 = acc.2.2) ∨
    (out.2.2 = acc.2.2 ++ [entry.1] ∧
      entry.1 = "content_discovery" ∧ (0.5 : ℚ) < entry.2) := by
  unfold enhanceStep at hok
  dsimp only at hok
  cases hfa : findAgent acc.2.1 entry.1 with
  | none =>
    rw [hfa] at hok
    simp at hok
  | some p =>
    rw [hfa] at hok
    dsimp only at hok
    injection hok with h2
    subst h2
    split_ifs with h1 hs h2 h3
    · exact Or.inr ⟨rfl, h1.1, h1.2⟩
    · exact Or.inr ⟨rfl, h1.1, h1.2⟩
    · exact Or.inl rfl
    · exact Or.inl rfl
    · exact Or.inl rfl

theorem enhanceStep_key (q : String) (c : PyDict) (ts : String) (e : ℚ)
    (primary : PyDict) (acc : EnhState) (entry : String × ℚ) (out : EnhState)
    (hok : enhanceStep q c ts e primary acc entry = Except.ok out)
    (k : String) (v : Val) (h : dget out.1 k = some v) :
    dget acc.1 k = some v ∨
    (k = "recommended_videos" ∧ entry.1 = "content_discovery" ∧
      (0.5 : ℚ) < entry.2) ∨
    (k = "study_path_available" ∧ v = .vBool true ∧
      entry.1 = "study_path_planner" ∧ (0.5 : ℚ) < entry.2) ∨
    (k = "practice_available" ∧ v = .vBool true ∧
      entry.1 = "assessment" ∧ (0.5 : ℚ) < entry.2) := by
  unfold enhanceStep at hok
  dsimp only at hok
  cases hfa : findAgent acc.2.1 entry.1 with
  | none =>
    rw [hfa] at hok
    simp at hok
  | some p =>
    rw [hfa] at hok
    dsimp only at hok
    injection hok with h2
    subst h2
    split_ifs at h with h1 hs h2 h3
    · by_cases hk : k = "recommended_videos"
      · exact Or.inr (Or.inl ⟨hk, h1.1, h1.2⟩)
      · rw [dget_dset_ne _ _ _ _ hk] at h
        exact Or.inl h
    · exact Or.inl h
    · by_cases hk : k = "study_path_available"
      · subst hk
        rw [dget_dset_self] at h
        exact Or.inr (Or.inr (Or.inl ⟨rfl, (Option.some.inj h).symm, h2.1, h2.2⟩))
      · rw [dget_dset_ne _ _ _ _ hk] at h
        exact Or.inl h
    · by_cases hk : k = "practice_available"
      · subst hk
        rw [dget_dset_self] at h
        exact Or.inr (Or.inr (Or.inr ⟨rfl, (Option.some.inj h).symm, h3.1, h3.2⟩))
      · rw [dget_dset_ne _ _ _ _ hk] at h
        exact Or.inl h
    · exact Or.inl h

theorem enhanceStep_flag_persist (q : String) (c : PyDict) (ts : String)
    (e : ℚ) (primary : PyDict) (acc : EnhState) (entry : String × ℚ)
    (out : EnhState)
    (hok : enhanceStep q c ts e primary acc entry = Except.ok out)
    (k : String) (hk1 : k = "study_path_available" ∨ k = "practice_available")
    (h : dget acc.1 k = some (.vBool true)) :
    dget out.1 k = some (.vBool true) := by
  have hkr : k ≠ "recommended_videos" := by
    rcases hk1 with rfl | rfl <;> decide
  unfold enhanceStep at hok
  dsimp only at hok
  cases hfa : findAgent acc.2.1 entry.1 with
  | none =>
    rw [hfa] at hok
    simp at hok
  | some p =>
    rw [hfa] at hok
    dsimp only at hok
    injection hok with h2
    subst h2
    split_ifs with h1 hs h2 h3
    · rw [dget_dset_ne _ _ _ _ hkr]
      exact h
    · exact h
    · by_cases hk : k = "study_path_available"
      · subst hk
        rw [dget_dset_self]
      · rw [dget_dset_ne _ _ _ _ hk]
        exact h
    · by_cases hk : k = "practice_available"
      · subst hk
        rw [dget_dset_self]
      · rw [dget_dset_ne _ _ _ _ hk]
        exact h
    · exact h

theorem enhanceStep_set_study (q : String) (c : PyDict) (ts : String) (e : ℚ)
    (primary : PyDict) (acc : EnhState) (entry : String × ℚ) (out : EnhState)
    (hok : enhanceStep q c ts e primary acc entry = Except.ok out)
    (h1 : entry.1 = "study_path_planner") (h2 : (0.5 : ℚ) < entry.2) :
    dget out.1 "study_path_available" = some (.vBool true) := by
  unfold enhanceStep at hok
  dsimp only at hok
  cases hfa : findAgent acc.2.1 entry.1 with
  | none =>
    rw [hfa] at hok
    simp at hok
  | some p =>
    rw [hfa] at hok
    dsimp only at hok
    injection hok with hout
    subst hout
    rw [if_neg (by rw [h1]; exact fun hc => absurd hc.1 (by decide)),
      if_pos ⟨h1, h2⟩, dget_dset_self]

theorem enhanceStep_set_assessment (q : String) (c : PyDict) (ts : String)
    (e : ℚ) (primary : PyDict) (acc : EnhState) (entry : String × ℚ)
    (out : EnhState)
    (hok : enhanceStep q c ts e primary acc entry = Except.ok out)
    (h1 : entry.1 = "assessment") (h2 : (0.5 : ℚ) < entry.2) :
    dget out.1 "practice_available" = some (.vBool true) := by
  unfold enhanceStep at hok
  dsimp only at hok
  cases hfa : findAgent acc.2.1 entry.1 with
  | none =>
    rw [hfa] at hok
    simp at hok
  | some p =>
    rw [hfa] at hok
    dsimp only at hok
    injection hok with hout
    subst hout
    rw [if_neg (by rw [h1]; exact fun hc => absurd hc.1 (by decide)),
      if_neg (by rw [h1]; exact fun hc => absurd hc.1 (by decide)),
      if_pos ⟨h1, h2⟩, dget_dset_self]

theorem enhLoopGo_trace (q : String) (c : PyDict) (ts : String) (e : ℚ)
    (primary : PyDict) (l : List (String × ℚ)) (acc out : EnhState)
    (hok : enhLoopGo q c ts e primary l acc = Except.ok out) :
    ∀ id ∈ out.2.2, id ∈ acc.2.2 ∨
      (id = "content_discovery" ∧ ∃ cf, (id, cf) ∈ l ∧ (0.5 : ℚ) < cf) := by
  revert hok
  induction l generalizing acc out with
  | nil =>
    intro hok
    simp only [enhLoopGo] at hok
    injection hok with h2
    subst h2
    intro id hid
    exact Or.inl hid
  | cons x xs ih =>
    intro hok
    simp only [enhLoopGo] at hok
    cases hs : enhanceStep q c ts e primary acc x with
    | error er =>
      rw [hs] at hok
      simp at hok
    | ok acc' =>
      rw [hs] at hok
      dsimp only at hok
      intro id hid
      rcases ih acc' out hok id hid with hin | ⟨hc, cf, hm, hlt⟩
      · rcases enhanceStep_trace q c ts e primary acc x acc' hs with
          ht | ⟨ht, hc, hlt⟩
        · rw [ht] at hin
          exact Or.inl hin
        · rw [ht] at hin
          rcases List.mem_append.mp hin with hin2 | hin2
          · exact Or.inl hin2
          · have hix : id = x.1 := by simpa using hin2
            subst hix
            refine Or.inr ⟨hc, x.2, ?_, hlt⟩
            exact List.mem_cons_self _ _
      · exact Or.inr ⟨hc, cf, List.mem_cons_of_mem _ hm, hlt⟩

theorem enhLoopGo_trace_len (q : String) (c : PyDict) (ts : String) (e : ℚ)
    (primary : PyDict) (l : List (String × ℚ)) (acc out : EnhState)
    (hok : enhLoopGo q c ts e primary l acc = Except.ok out) :
    out.2.2.length ≤ acc.2.2.length + l.length := by
  revert hok
  induction l generalizing acc out with
  | nil =>
    intro hok
    simp only [enhLoopGo] at hok
    injection hok with h2
    subst h2
    simp
  | cons x xs ih =>
    intro hok
    simp only [enhLoopGo] at hok
    cases hs : enhanceStep q c ts e primary acc x with
    | error er =>
      rw [hs] at hok
      simp at hok
    | ok acc' =>
      rw [hs] at hok
      dsimp only at hok
      have h1 := ih acc' out hok
      have h2 : acc'.2.2.length ≤ acc.2.2.length + 1 := by
        rcases enhanceStep_trace q c ts e primary acc x acc' hs with
          ht | ⟨ht, _, _⟩
        · rw [ht]
          omega
        · rw [ht, List.length_append]
          simp
      rw [List.length_cons]
      omega

theorem enhLoopGo_key (q : String) (c : PyDict) (ts : String) (e : ℚ)
    (primary : PyDict) (l : List (String × ℚ)) (acc out : EnhState)
    (hok : enhLoopGo q c ts e primary l acc = Except.ok out)
    (k : String) (v : Val) (h : dget out.1 k = some v) :
    dget acc.1 k = some v ∨
    (k = "recommended_videos" ∧
      ∃ cf, ("content_discovery", cf) ∈ l ∧ (0.5 : ℚ) < cf) ∨
    (k = "study_path_available" ∧ v = .vBool true ∧
      ∃ cf, ("study_path_planner", cf) ∈ l ∧ (0.5 : ℚ) < cf) ∨
    (k = "practice_available" ∧ v = .vBool true ∧
      ∃ cf, ("assessment", cf) ∈ l ∧ (0.5 : ℚ) < cf) := by
  revert hok h
  induction l generalizing acc out with
  | nil =>
    intro hok h
    simp only [enhLoopGo] at hok
    injection hok with h2
    subst h2
    exact Or.inl h
  | cons x xs ih =>
    intro hok h
    simp only [enhLoopGo] at hok
    cases hs : enhanceStep q c ts e primary acc x with
    | error er =>
      rw [hs] at hok
      simp at hok
    | ok acc' =>
      rw [hs] at hok
      dsimp only at hok
      rcases ih acc' out hok h with
        h0 | ⟨hk, cf, hm, hlt⟩ | ⟨hk, hv, cf, hm, hlt⟩ | ⟨hk, hv, cf, hm, hlt⟩
      · rcases enhanceStep_key q c ts e primary acc x acc' hs k v h0 with
          h0 | ⟨hk, hc, hlt⟩ | ⟨hk, hv, hc, hlt⟩ | ⟨hk, hv, hc, hlt⟩
        · exact Or.inl h0
        · refine Or.inr (Or.inl ⟨hk, x.2, ?_, hlt⟩)
          rw [← hc]
          exact List.mem_cons_self _ _
        · refine Or.inr (Or.inr (Or.inl ⟨hk, hv, x.2, ?_, hlt⟩))
          rw [← hc]
          exact List.mem_cons_self _ _
        · refine Or.inr (Or.inr (Or.inr ⟨hk, hv, x.2, ?_, hlt⟩))
          rw [← hc]
          exact List.mem_cons_self _ _
      · exact Or.inr (Or.inl ⟨hk, cf, List.mem_cons_of_mem _ hm, hlt⟩)
      · exact Or.inr (Or.inr (Or.inl ⟨hk, hv, cf, List.mem_cons_of_mem _ hm, hlt⟩))
      · exact Or.inr (Or.inr (Or.inr ⟨hk, hv, cf, List.mem_cons_of_mem _ hm, hlt⟩))

theorem enhLoopGo_persist (q : String) (c : PyDict) (ts : String) (e : ℚ)
    (primary : PyDict) (l : List (String × ℚ)) (acc out : EnhState)
    (hok : enhLoopGo q c ts e primary l acc = Except.ok out)
    (k : String) (hk1 : k = "study_path_available" ∨ k = "practice_available")
    (h : dget acc.1 k = some (.vBool true)) :
    dget out.1 k = some (.vBool true) := by
  revert hok h
  induction l generalizing acc out with
  | nil =>
    intro hok h
    simp only [enhLoopGo] at hok
    injection hok with h2
    subst h2
    exact h
  | cons x xs ih =>
    intro hok h
    simp only [enhLoopGo] at hok
    cases hs : enhanceStep q c ts e primary acc x with
    | error er =>
      rw [hs] at hok
      simp at hok
    | ok acc' =>
      rw [hs] at hok
      dsimp only at hok
      exact ih acc' out hok
        (enhanceStep_flag_persist q c ts e primary acc x acc' hs k hk1 h)

theorem enhLoopGo_set_study (q : String) (c : PyDict) (ts : String) (e : ℚ)
    (primary : PyDict) (l : List (String × ℚ)) (acc out : EnhState)
    (hok : enhLoopGo q c ts e primary l acc = Except.ok out) (cf : ℚ)
    (hm : ("study_path_planner", cf) ∈ l) (hlt : (0.5 : ℚ) < cf) :
    dget out.1 "study_path_available" = some (.vBool true) := by
  revert hok
  induction hm generalizing acc out with
  | head as =>
    intro hok
    simp only [enhLoopGo] at hok
    cases hs : enhanceStep q c ts e primary acc ("study_path_planner", cf) with
    | error er =>
      rw [hs] at hok
      simp at hok
    | ok acc' =>
      rw [hs] at hok
      dsimp only at hok
      exact enhLoopGo_persist q c ts e primary as acc' out hok _ (Or.inl rfl)
        (enhanceStep_set_study q c ts e primary acc _ acc' hs rfl hlt)
  | tail b hmem ih =>
    intro hok
    simp only [enhLoopGo] at hok
    cases hs : enhanceStep q c ts e primary acc b with
    | error er =>
      rw [hs] at hok
      simp at hok
    | ok acc' =>
      rw [hs] at hok
      dsimp only at hok
      exact ih acc' out hok

theorem enhLoopGo_set_assessment (q : String) (c : PyDict) (ts : String)
    (e : ℚ) (primary : PyDict) (l : List (String × ℚ)) (acc out : EnhState)
    (hok : enhLoopGo q c ts e primary l acc = Except.ok out) (cf : ℚ)
    (hm : ("assessment", cf) ∈ l) (hlt : (0.5 : ℚ) < cf) :
    dget out.1 "practice_available" = some (.vBool true) := by
  revert hok
  induction hm generalizing acc out with
  | head as =>
    intro hok
    simp only [enhLoopGo] at hok
    cases hs : enhanceStep q c ts e primary acc ("assessment", cf) with
    | error er =>
      rw [hs] at hok
      simp at hok
    | ok acc' =>
      rw [hs] at hok
      dsimp only at hok
      exact enhLoopGo_persist q c ts e primary as acc' out hok _ (Or.inr rfl)
        (enhanceStep_set_assessment q c ts e primary acc _ acc' hs rfl hlt)
  | tail b hmem ih =>
    intro hok
    simp only [enhLoopGo] at hok
    cases hs : enhanceStep q c ts e primary acc b with
    | error er =>
      rw [hs] at hok
      simp at hok
    | ok acc' =>
      rw [hs] at hok
      dsimp only at hok
      exact ih acc' out hok

theorem enhanceResponse_frame (ags : List (String × Agent)) (primary : PyDict)
    (secs : List (String × ℚ)) (q : String) (c : PyDict) (ts : String) (e : ℚ)
    (st : EnhState)
    (h : enhanceResponse ags primary secs q c ts e = Except.ok st)
    (k : String) (hk : k ≠ "enhancements") :
    dget st.1 k = dget primary k := by
  unfold enhanceResponse at h
  cases hl : enhLoop ags primary secs q c ts e with
  | error er =>
    rw [hl] at h
    simp at h
  | ok l =>
    rw [hl] at h
    dsimp only at h
    injection h with h2
    subst h2
    dsimp only
    split_ifs with he
    · rfl
    · exact dget_dset_ne _ _ _ _ hk
theorem processQuery_timestamp (o : Orchestrator) (q : String)
    (ctx : Option PyDict) (ts : String) (e1 e2 : ℚ) :
    dget (processQuery o q ctx ts e1 e2).1 "timestamp" = some (.vStr ts) := by
  simp only [processQuery]
  cases hsel : selectAgents o.agents q (ctx.getD []) with
  | nil =>
    dsimp only
    cases hfa : findAgent o.agents "offline_knowledge" with
    | none => rfl
    | some fa =>
      dsimp only
      rw [dget_dset_ne _ _ _ _ (by decide)]
      exact process_env_timestamp _ _ _ _ _ _
  | cons hd tl =>
    obtain ⟨pid, conf⟩ := hd
    dsimp only
    cases hfa : findAgent o.agents pid with
    | none => rfl
    | some pe =>
      dsimp only
      by_cases hcond : tl ≠ [] ∧
          truthy (dget (pe.2.process q (some (ctx.getD [])) none ts e1).1
            "success") = true
      · rw [if_pos hcond]
        cases her : enhanceResponse
            (setAgent o.agents pid
              (pe.2.process q (some (ctx.getD [])) none ts e1).2)
            (pe.2.process q (some (ctx.getD [])) none ts e1).1
            tl q (ctx.getD []) ts e1 with
        | error ex => rfl
        | ok e2r =>
          dsimp only
          rw [dget_dset_ne _ _ _ _ (by decide)]
          rw [enhanceResponse_frame _ _ _ _ _ _ _ _ her "timestamp" (by decide)]
          exact process_env_timestamp _ _ _ _ _ _
      · rw [if_neg hcond]
        dsimp only
        rw [dget_dset_ne _ _ _ _ (by decide)]
        exact process_env_timestamp _ _ _ _ _ _

/-- counterexample to C2 as stated: on this orchestrator the selected primary
agent raises internally; process_query still answers (success false, with
agent identity and mode), but the returned envelope has no response_time_ms
field, although the claim requires it on every call path. -/
theorem c2_counterexample_missing_response_time :
    dget (processQuery c2Orch "q" none "t0" 1 2).1 "success" =
      some (.vBool false) ∧
    dget (processQuery c2Orch "q" none "t0" 1 2).1 "agent_id" =
      some (.vStr "bad") ∧
    dget (processQuery c2Orch "q" none "t0" 1 2).1 "response_time_ms" =
      none := by
  refine ⟨?_, ?_, ?_⟩ <;> with_unfolding_all rfl

/-- C2 amended: process_query always returns an envelope (it is a total
function of the embedding) carrying the timestamp; whenever an agent path
runs, the envelope carries agent_id, agent_name and mode; response_time_ms is
present exactly on the normal agent return; on an agent-internal exception
the envelope has success false and no response_time_ms; the pipeline-level
except envelope carries only success, error, message and timestamp. -/
theorem c2_envelope_fields_amended :
    (∀ (o : Orchestrator) (q : String) (ctx : Option PyDict) (ts : String)
        (e1 e2 : ℚ),
      dget (processQuery o q ctx ts e1 e2).1 "timestamp" = some (.vStr ts)) ∧
    (∀ (a : Agent) (q : String) (ctx : Option PyDict) (mode : Option AgentMode)
        (ts : String) (e : ℚ),
      dget (a.process q ctx mode ts e).1 "agent_id" = some (.vStr a.agent_id) ∧
      dget (a.process q ctx mode ts e).1 "agent_name" = some (.vStr a.name) ∧
      dget (a.process q ctx mode ts e).1 "mode" =
        some (.vStr (resolveMode a ctx mode).value) ∧
      dget (a.process q ctx mode ts e).1 "timestamp" = some (.vStr ts)) ∧
    (∀ (a : Agent) (q : String) (ctx : Option PyDict) (mode : Option AgentMode)
        (ts : String) (e : ℚ) (r : PyDict),
      runPath a q ctx mode = Except.ok r →
      dget (a.process q ctx mode ts e).1 "response_time_ms" =
        some (.vNum e)) ∧
    (∀ (a : Agent) (q : String) (ctx : Option PyDict) (mode : Option AgentMode)
        (ts : String) (e : ℚ) (err : String),
      runPath a q ctx mode = Except.error err →
      dget (a.process q ctx mode ts e).1 "response_time_ms" = none ∧
      dget (a.process q ctx mode ts e).1 "success" = some (.vBool false)) ∧
    (∀ err ts : String,
      dget (pipelineErrorEnvelope err ts) "success" = some (.vBool false) ∧
      dget (pipelineErrorEnvelope err ts) "error" = some (.vStr err) ∧
      dget (pipelineErrorEnvelope err ts) "timestamp" = some (.vStr ts) ∧
      dget (pipelineErrorEnvelope err ts) "agent_id" = none ∧
      dget (pipelineErrorEnvelope err ts) "response_time_ms" = none) := by
  refine ⟨processQuery_timestamp, ?_, ?_, ?_, ?_⟩
  · intro a q ctx mode ts e
    exact ⟨process_env_agent_id a q ctx mode ts e,
      process_env_agent_name a q ctx mode ts e,
      process_env_mode a q ctx mode ts e,
      process_env_timestamp a q ctx mode ts e⟩
  · intro a q ctx mode ts e r h
    exact process_env_rtms_ok a q ctx mode ts e r h
  · intro a q ctx mode ts e err h
    exact ⟨(process_env_rtms_error a q ctx mode ts e err h).1,
      (process_env_rtms_error a q ctx mode ts e err h).2.1⟩
  · intro err ts
    exact ⟨rfl, rfl, rfl, rfl, rfl⟩

/-- witness for the amended C2 at concrete agents: a normal return carries
response_time_ms, an internal exception does not, and the orchestrator always
stamps the call timestamp. -/
theorem c2_envelope_fields_amended_witness :
    dget ((toyAgent "wa" 1 1).process "q" none none "t" 3).1
        "response_time_ms" = some (.vNum 3) ∧
    dget (errAgent.process "q" none none "t" 3).1 "response_time_ms" = none ∧
    dget (processQuery c5Orch "zzz" none "tw" 1 2).1 "timestamp" =
      some (.vStr "tw") := by
  have h := c2_envelope_fields_amended
  exact ⟨h.2.2.1 (toyAgent "wa" 1 1) "q" none none "t" 3
      [("success", .vBool true)] rfl,
    (h.2.2.2.1 errAgent "q" none none "t" 3 "boom" rfl).1,
    h.1 c5Orch "zzz" none "tw" 1 2⟩

/-- C6: when the primary envelope is successful and more than one agent was
selected, process_query returns the enhanced primary envelope; whenever the
enhancement pass completes (every secondary id is registered, so the
line-200 lookup never raises), it has invoked process on at most 2
secondaries, each invoked or contributing secondary sits among the first two
with confidence above 0.5, and every contribution is merged under the
contributing agent's own key inside the enhancements sub-object without
touching any primary field. -/
theorem c6_enhancement_contract (ags : List (String × Agent)) (primary : PyDict)
    (secs : List (String × ℚ)) (q : String) (c : PyDict) (ts : String)
    (e : ℚ) :
    (∀ l, enhLoop ags primary secs q c ts e = Except.ok l →
      l.2.2.length ≤ 2 ∧
      (∀ id ∈ l.2.2, id = "content_discovery" ∧
        ∃ cf, (id, cf) ∈ secs.take 2 ∧ (0.5 : ℚ) < cf) ∧
      (∀ k v, dget l.1 k = some v →
        (k = "recommended_videos" ∧
          ∃ cf, ("content_discovery", cf) ∈ secs.take 2 ∧ (0.5 : ℚ) < cf) ∨
        (k = "study_path_available" ∧ v = .vBool true ∧
          ∃ cf, ("study_path_planner", cf) ∈ secs.take 2 ∧ (0.5 : ℚ) < cf) ∨
        (k = "practice_available" ∧ v = .vBool true ∧
          ∃ cf, ("assessment", cf) ∈ secs.take 2 ∧ (0.5 : ℚ) < cf)) ∧
      (∀ cf, ("study_path_planner", cf) ∈ secs.take 2 → (0.5 : ℚ) < cf →
        dget l.1 "study_path_available" = some (.vBool true)) ∧
      (∀ cf, ("assessment", cf) ∈ secs.take 2 → (0.5 : ℚ) < cf →
        dget l.1 "practice_available" = some (.vBool true))) ∧
    (∀ st, enhanceResponse ags primary secs q c ts e = Except.ok st →
      (∀ k, k ≠ "enhancements" → dget st.1 k = dget primary k) ∧
      (∀ l, enhLoop ags primary secs q c ts e = Except.ok l → l.1 ≠ [] →
        dget st.1 "enhancements" = some (.vDict l.1))) ∧
    (∀ (o : Orchestrator) (ctx : Option PyDict) (ts2 : String) (e1 e2 : ℚ)
        (pid : String) (cf : ℚ) (rest : List (String × ℚ))
        (pe : String × Agent) (st : EnhState),
      selectAgents o.agents q (ctx.getD []) = (pid, cf) :: rest →
      findAgent o.agents pid = some pe →
      rest ≠ [] →
      truthy (dget (pe.2.process q (some (ctx.getD [])) none ts2 e1).1
        "success") = true →
      enhanceResponse
        (setAgent o.agents pid
          (pe.2.process q (some (ctx.getD [])) none ts2 e1).2)
        (pe.2.process q (some (ctx.getD [])) none ts2 e1).1
        rest q (ctx.getD []) ts2 e1 = Except.ok st →
      (processQuery o q ctx ts2 e1 e2).1 =
        dset st.1 "total_response_time_ms" (.vNum e2)) := by
  refine ⟨?_, ?_, ?_⟩
  · intro l hl
    refine ⟨?_, ?_, ?_, ?_, ?_⟩
    · have h1 := enhLoopGo_trace_len q c ts e primary (secs.take 2)
        ([], ags, []) l hl
      have h2 := List.length_take_le 2 secs
      dsimp only at h1
      simp only [List.length_nil] at h1
      omega
    · intro id hid
      rcases enhLoopGo_trace q c ts e primary (secs.take 2) ([], ags, []) l hl
        id hid with hin | ⟨hc, cf, hm, hlt⟩
      · exact absurd hin (List.not_mem_nil _)
      · exact ⟨hc, cf, hm, hlt⟩
    · intro k v h
      rcases enhLoopGo_key q c ts e primary (secs.take 2) ([], ags, []) l hl
        k v h with h0 | h1 | h2 | h3
      · exact absurd h0 (by simp [dget])
      · exact Or.inl h1
      · exact Or.inr (Or.inl h2)
      · exact Or.inr (Or.inr h3)
    · intro cf hm hlt
      exact enhLoopGo_set_study q c ts e primary (secs.take 2) ([], ags, [])
        l hl cf hm hlt
    · intro cf hm hlt
      exact enhLoopGo_set_assessment q c ts e primary (secs.take 2)
        ([], ags, []) l hl cf hm hlt
  · intro st hst
    refine ⟨fun k hk =>
      enhanceResponse_frame ags primary secs q c ts e st hst k hk, ?_⟩
    intro l hl hne
    unfold enhanceResponse at hst
    rw [hl] at hst
    dsimp only at hst
    injection hst with h2
    subst h2
    dsimp only
    split_ifs with he
    · exact absurd (List.isEmpty_iff.mp he) hne
    · exact dget_dset_self _ _ _
  · intro o ctx ts2 e1 e2 pid cf rest pe st hsel hfind hrest htr hok
    simp only [processQuery]
    rw [hsel]
    dsimp only
    rw [hfind]
    dsimp only
    rw [if_pos ⟨hrest, htr⟩, hok]

/-- witness for C6: a qualifying study_path_planner secondary registered in
the registry contributes study_path_available = true, and a concrete
two-agent orchestrator with a successful primary returns the enhanced
envelope with that contribution inside enhancements. -/
theorem c6_enhancement_contract_witness :
    (enhLoop spReg [("success", Val.vBool true)] [("study_path_planner", 0.9)]
        "q" [] "t" 1).toOption.map (fun l => dget l.1 "study_path_available") =
      some (some (.vBool true)) ∧
    dget (processQuery c6Orch "q" none "t" 1 2).1 "enhancements" =
      some (.vDict [("study_path_available", Val.vBool true)]) := by
  constructor
  · have hents : ∀ entry ∈
        ([("study_path_planner", (0.9 : ℚ))] : List (String × ℚ)).take 2,
        (findAgent spReg entry.1).isSome = true := by
      intro entry hm
      have hm2 : entry ∈ [(("study_path_planner" : String), (0.9 : ℚ))] := hm
      rcases List.mem_cons.mp hm2 with heq | hni
      · subst heq
        rfl
      · exact absurd hni (List.not_mem_nil _)
    obtain ⟨l0, hl0⟩ := enhLoopGo_isOk "q" [] "t" 1
      [("success", Val.vBool true)]
      ([("study_path_planner", (0.9 : ℚ))].take 2) ([], spReg, []) hents
    have hl0e : enhLoop spReg [("success", Val.vBool true)]
        [("study_path_planner", 0.9)] "q" [] "t" 1 = Except.ok l0 := hl0
    have hflag := ((c6_enhancement_contract spReg [("success", Val.vBool true)]
      [("study_path_planner", 0.9)] "q" [] "t" 1).1 l0 hl0e).2.2.2.1 0.9
      (by with_unfolding_all decide) (by norm_num)
    rw [hl0e]
    dsimp only [Except.toOption, Option.map]
    rw [hflag]
  · have hents2 : ∀ entry ∈
        ([("study_path_planner", (0.8 : ℚ))] : List (String × ℚ)).take 2,
        (findAgent (setAgent c6Orch.agents "p1"
          ((toyAgent "p1" 1 0.9).process "q" (some []) none "t" 1).2)
          entry.1).isSome = true := by
      intro entry hm
      have hm2 : entry ∈ [(("study_path_planner" : String), (0.8 : ℚ))] := hm
      rcases List.mem_cons.mp hm2 with heq | hni
      · subst heq
        rw [findAgent_isSome_setAgent]
        rfl
      · exact absurd hni (List.not_mem_nil _)
    obtain ⟨st0, hst0⟩ := enhanceResponse_isOk
      (setAgent c6Orch.agents "p1"
        ((toyAgent "p1" 1 0.9).process "q" (some []) none "t" 1).2)
      ((toyAgent "p1" 1 0.9).process "q" (some []) none "t" 1).1
      [("study_path_planner", 0.8)] "q" [] "t" 1 hents2
    have henv := (c6_enhancement_contract [] [] [] "q" [] "t" 0).2.2
      c6Orch none "t" 1 2 "p1" 0.9 [("study_path_planner", 0.8)]
      ("p1", toyAgent "p1" 1 0.9) st0
      (by with_unfolding_all rfl) rfl (List.cons_ne_nil _ _)
      (by with_unfolding_all rfl) hst0
    obtain ⟨l0, hl0⟩ := enhLoopGo_isOk "q" [] "t" 1
      ((toyAgent "p1" 1 0.9).process "q" (some []) none "t" 1).1
      ([("study_path_planner", (0.8 : ℚ))].take 2)
      ([], setAgent c6Orch.agents "p1"
        ((toyAgent "p1" 1 0.9).process "q" (some []) none "t" 1).2, [])
      hents2
    have hl0e : enhLoop
        (setAgent c6Orch.agents "p1"
          ((toyAgent "p1" 1 0.9).process "q" (some []) none "t" 1).2)
        ((toyAgent "p1" 1 0.9).process "q" (some []) none "t" 1).1
        [("study_path_planner", 0.8)] "q" [] "t" 1 = Except.ok l0 := hl0
    have hproj : (enhLoop
        (setAgent c6Orch.agents "p1"
          ((toyAgent "p1" 1 0.9).process "q" (some []) none "t" 1).2)
        ((toyAgent "p1" 1 0.9).process "q" (some []) none "t" 1).1
        [("study_path_planner", 0.8)] "q" [] "t" 1).toOption.map
        (fun l => l.1) =
        some [("study_path_available", Val.vBool true)] := by
      with_unfolding_all rfl
    rw [hl0e] at hproj
    dsimp only [Except.toOption, Option.map] at hproj
    have hl1 : l0.1 = [("study_path_available", Val.vBool true)] :=
      Option.some.inj hproj
    have hattach := ((c6_enhancement_contract
      (setAgent c6Orch.agents "p1"
        ((toyAgent "p1" 1 0.9).process "q" (some []) none "t" 1).2)
      ((toyAgent "p1" 1 0.9).process "q" (some []) none "t" 1).1
      [("study_path_planner", 0.8)] "q" [] "t" 1).2.1 st0 hst0).2 l0 hl0e
      (by rw [hl1]; exact List.cons_ne_nil _ _)
    rw [henv, dget_dset_ne _ _ _ _ (by decide), hattach, hl1]

theorem enhanceStep_rv_of_fail (q : String) (c : PyDict) (ts : String) (e : ℚ)
    (primary : PyDict) (acc : EnhState) (entry : String × ℚ) (out : EnhState)
    (hok : enhanceStep q c ts e primary acc entry = Except.ok out)
    (hfail : entry.1 = "content_discovery" → (0.5 : ℚ) < entry.2 →
      videoFails acc.2.1 primary q c ts e) :
    dget out.1 "recommended_videos" = dget acc.1 "recommended_videos" := by
  unfold enhanceStep at hok
  dsimp only at hok
  cases hfa : findAgent acc.2.1 entry.1 with
  | none =>
    rw [hfa] at hok
    simp at hok
  | some p =>
    rw [hfa] at hok
    dsimp only at hok
    injection hok with h2
    subst h2
    split_ifs with h1 hs h2 h3
    · obtain ⟨p', hp', hv⟩ := hfail h1.1 h1.2
      rw [h1.1] at hfa
      rw [hfa] at hp'
      injection hp' with hp2
      subst hp2
      rw [hv] at hs
      simp at hs
    · rfl
    · rw [dget_dset_ne _ _ _ _ (by decide)]
    · rw [dget_dset_ne _ _ _ _ (by decide)]
    · rfl

theorem enhanceStep_reg_of_not_content (q : String) (c : PyDict) (ts : String)
    (e : ℚ) (primary : PyDict) (acc : EnhState) (entry : String × ℚ)
    (out : EnhState)
    (hok : enhanceStep q c ts e primary acc entry = Except.ok out)
    (h : ¬(entry.1 = "content_discovery" ∧ (0.5 : ℚ) < entry.2)) :
    out.2.1 = acc.2.1 := by
  unfold enhanceStep at hok
  dsimp only at hok
  cases hfa : findAgent acc.2.1 entry.1 with
  | none =>
    rw [hfa] at hok
    simp at hok
  | some p =>
    rw [hfa] at hok
    dsimp only at hok
    injection hok with h2
    subst h2
    rw [if_neg h]
    split_ifs <;> rfl

/-- C7: when every qualifying content_discovery secondary among the first two
is registered but its video attempt fails in the swallowed sense (a
success-false envelope, which is also how an internal exception of the
secondary surfaces), the completed enhancement pass contains no
recommended_videos entry, and every field of the already-successful primary
envelope other than enhancements is left exactly as it was.  A secondary id
missing from the registry altogether is outside this claim: there the source
raises KeyError out of _enhance_response (orchestrator.py line 200) and the
outer except replaces the whole response. -/
theorem c7_secondary_failure_nondestructive (ags : List (String × Agent))
    (primary : PyDict) (secs : List (String × ℚ)) (q : String) (c : PyDict)
    (ts : String) (e : ℚ)
    (hnodup : ((secs.take 2).map Prod.fst).Nodup)
    (hfail : ∀ cf, ("content_discovery", cf) ∈ secs.take 2 → (0.5 : ℚ) < cf →
      videoFails ags primary q c ts e) :
    (∀ st, enhanceResponse ags primary secs q c ts e = Except.ok st →
      ∀ k, k ≠ "enhancements" → dget st.1 k = dget primary k) ∧
    (∀ l, enhLoop ags primary secs q c ts e = Except.ok l →
      dget l.1 "recommended_videos" = none) := by
  refine ⟨fun st hst k hk =>
    enhanceResponse_frame ags primary secs q c ts e st hst k hk, ?_⟩
  intro lres hl
  unfold enhLoop at hl
  have hlen := List.length_take_le 2 secs
  revert hnodup hfail hlen hl
  generalize secs.take 2 = l2
  intro hnodup hfail hl hlen
  match l2, hnodup, hfail, hlen, hl with
  | [], hnodup, hfail, hlen, hl =>
    try simp only [enhLoopGo] at hl
    injection hl with h2
    subst h2
    rfl
  | [x], hnodup, hfail, hlen, hl =>
    try simp only [enhLoopGo] at hl
    cases hs : enhanceStep q c ts e primary ([], ags, []) x with
    | error er =>
      rw [hs] at hl
      simp at hl
    | ok acc1 =>
      rw [hs] at hl
      dsimp only at hl
      injection hl with h2
      subst h2
      rw [enhanceStep_rv_of_fail q c ts e primary ([], ags, []) x acc1 hs
        (fun hc1 hc2 => hfail x.2
          (by rw [← hc1]; exact List.mem_cons_self _ _) hc2)]
      rfl
  | [x, y], hnodup, hfail, hlen, hl =>
    try simp only [enhLoopGo] at hl
    cases hs1 : enhanceStep q c ts e primary ([], ags, []) x with
    | error er =>
      rw [hs1] at hl
      simp at hl
    | ok acc1 =>
      rw [hs1] at hl
      dsimp only at hl
      cases hs2 : enhanceStep q c ts e primary acc1 y with
      | error er =>
        rw [hs2] at hl
        simp at hl
      | ok acc2 =>
        rw [hs2] at hl
        dsimp only at hl
        injection hl with h2
        subst h2
        have hx : dget acc1.1 "recommended_videos" = none := by
          rw [enhanceStep_rv_of_fail q c ts e primary ([], ags, []) x acc1 hs1
            (fun hc1 hc2 => hfail x.2
              (by rw [← hc1]; exact List.mem_cons_self _ _) hc2)]
          rfl
        by_cases hxc : x.1 = "content_discovery" ∧ (0.5 : ℚ) < x.2
        · have hyne : y.1 ≠ "content_discovery" := by
            intro hy
            have hnd := hnodup
            simp only [List.map_cons, List.map_nil, List.nodup_cons,
              List.mem_cons, List.mem_singleton] at hnd
            exact hnd.1 (by simp [hxc.1, hy])
          rw [enhanceStep_rv_of_fail q c ts e primary acc1 y acc2 hs2
            (fun hc1 _ => absurd hc1 hyne)]
          exact hx
        · have hreg : acc1.2.1 = ags :=
            enhanceStep_reg_of_not_content q c ts e primary ([], ags, []) x
              acc1 hs1 hxc
          have hmy : (y.1, y.2) ∈ [x, y] :=
            List.mem_cons_of_mem _ (List.mem_cons_self _ _)
          have hv2 : y.1 = "content_discovery" → (0.5 : ℚ) < y.2 →
              videoFails acc1.2.1 primary q c ts e := by
            intro hc1 hc2
            rw [hreg]
            exact hfail y.2 (hc1 ▸ hmy) hc2
          rw [enhanceStep_rv_of_fail q c ts e primary acc1 y acc2 hs2 hv2]
          exact hx
  | x :: y :: z :: zs, hnodup, hfail, hlen, hl =>
    exfalso
    try simp only [List.length_cons] at hlen
    omega

/-- witness for C7: a registered content_discovery secondary whose process
raises internally (surfacing as a success-false envelope) leaves the
successful primary envelope untouched and contributes nothing. -/
theorem c7_secondary_failure_nondestructive_witness :
    (enhanceResponse cdErrReg
        [("success", Val.vBool true), ("answer", Val.vStr "42")]
        [("content_discovery", 0.9)] "q" [] "t" 1).toOption.map
        (fun st => dget st.1 "success") = some (some (.vBool true)) ∧
    (enhLoop cdErrReg [("success", Val.vBool true), ("answer", Val.vStr "42")]
        [("content_discovery", 0.9)] "q" [] "t" 1).toOption.map
        (fun l => dget l.1 "recommended_videos") = some none := by
  have h := c7_secondary_failure_nondestructive cdErrReg
    [("success", Val.vBool true), ("answer", Val.vStr "42")]
    [("content_discovery", 0.9)] "q" [] "t" 1
    (by with_unfolding_all decide)
    (by
      intro cf hm hcf
      refine ⟨("content_discovery",
        mkAgent "content_discovery" "CD" 3 (fun _ _ => 0.85)
          ⟨.offline, initStats, errB, errB⟩), rfl, ?_⟩
      with_unfolding_all rfl)
  have hents : ∀ entry ∈
      ([("content_discovery", (0.9 : ℚ))] : List (String × ℚ)).take 2,
      (findAgent cdErrReg entry.1).isSome = true := by
    intro entry hm
    have hm2 : entry ∈ [(("content_discovery" : String), (0.9 : ℚ))] := hm
    rcases List.mem_cons.mp hm2 with heq | hni
    · subst heq
      rfl
    · exact absurd hni (List.not_mem_nil _)
  obtain ⟨st0, hst0⟩ := enhanceResponse_isOk cdErrReg
    [("success", Val.vBool true), ("answer", Val.vStr "42")]
    [("content_discovery", 0.9)] "q" [] "t" 1 hents
  obtain ⟨l0, hl0⟩ := enhLoopGo_isOk "q" [] "t" 1
    [("success", Val.vBool true), ("answer", Val.vStr "42")]
    ([("content_discovery", (0.9 : ℚ))].take 2) ([], cdErrReg, []) hents
  have hl0e : enhLoop cdErrReg
      [("success", Val.vBool true), ("answer", Val.vStr "42")]
      [("content_discovery", 0.9)] "q" [] "t" 1 = Except.ok l0 := hl0
  constructor
  · rw [hst0]
    dsimp only [Except.toOption, Option.map]
    rw [h.1 st0 hst0 "success" (by decide)]
    rfl
  · rw [hl0e]
    dsimp only [Except.toOption, Option.map]
    rw [h.2 l0 hl0e]

end DTU
